import Mathlib

/-!
Verification development for the QSpringies simulation engine.

The development shallow-embeds the engine (system.cpp, phys.cpp, misc.cpp,
state.cpp of the QSpringies repository) in Lean.  C++ `double` values are
modelled as exact rationals `ℚ`; the transcendental library functions the
engine calls (`sqrt`, `sin`, `cos`, `pow`, `exp`, `log`) are abstracted as
function parameters collected in a context structure `Ctx`, so that every
definition stays computable and theorems quantify over the interpretation
of those functions.  For the one claim that is about IEEE NaN behaviour, a
small scalar type `Dbl` (a rational or NaN) is used instead, with the
NaN-propagation rules of IEEE subtraction and the IEEE semantics of the
`x != 0.0` comparison.

Entity containers (`std::vector<Mass>`, `std::vector<Spring>`) are modelled
as Lean lists indexed by position; `for` loops over an index become folds
over `List.range`, and loops whose body only rewrites the current element
become `List.map` (each such modelling choice is noted at the definition).
-/

set_option maxHeartbeats 1000000

namespace QSpringies

/-- Status bit-set of an entity: the C++ `status` int with bits `S_ALIVE`,
`S_SELECTED`, `S_FIXED`, `S_TEMPFIXED` (system.h) modelled as four booleans. -/
structure Status where
  alive : Bool
  selected : Bool
  fixed : Bool
  tempfixed : Bool
deriving DecidableEq

/-- Status value `0`: the result of the C++ assignment `status = 0`. -/
def Status.clear : Status := ⟨false, false, false, false⟩

/-- Status of a freshly constructed entity: `S_ALIVE` alone (the default
constructors of `Mass` and `Spring` in system.h). -/
def Status.aliveOnly : Status := ⟨true, false, false, false⟩

/-- A mass, mirroring `struct Mass` of system.h field by field, with scalar
type `α` in place of `double`.  The RK scratch fields (`cur_*`, `old_*`,
`test_*`, `k1..k6`) are kept as persistent fields exactly as in the source. -/
structure Mass (α : Type) where
  x : α
  y : α
  vx : α
  vy : α
  ax : α
  ay : α
  mass : α
  elastic : α
  radius : ℤ
  parents : List ℕ
  status : Status
  cur_x : α
  cur_y : α
  cur_vx : α
  cur_vy : α
  old_x : α
  old_y : α
  old_vx : α
  old_vy : α
  test_x : α
  test_y : α
  test_vx : α
  test_vy : α
  k1x : α
  k1y : α
  k1vx : α
  k1vy : α
  k2x : α
  k2y : α
  k2vx : α
  k2vy : α
  k3x : α
  k3y : α
  k3vx : α
  k3vy : α
  k4x : α
  k4y : α
  k4vx : α
  k4vy : α
  k5x : α
  k5y : α
  k5vx : α
  k5vy : α
  k6x : α
  k6y : α
  k6vx : α
  k6vy : α
deriving DecidableEq

/-- A default mass with every scalar field set to `z`: the C++ default
constructor zero-initialises the public scalars and leaves the scratch
fields indeterminate; the model sets everything to `z` and `status` to
`S_ALIVE`, as the constructor does. -/
def mkMass {α : Type} (z : α) : Mass α :=
  { x := z, y := z, vx := z, vy := z, ax := z, ay := z, mass := z,
    elastic := z, radius := 0, parents := [], status := Status.aliveOnly,
    cur_x := z, cur_y := z, cur_vx := z, cur_vy := z,
    old_x := z, old_y := z, old_vx := z, old_vy := z,
    test_x := z, test_y := z, test_vx := z, test_vy := z,
    k1x := z, k1y := z, k1vx := z, k1vy := z,
    k2x := z, k2y := z, k2vx := z, k2vy := z,
    k3x := z, k3y := z, k3vx := z, k3vy := z,
    k4x := z, k4y := z, k4vx := z, k4vy := z,
    k5x := z, k5y := z, k5vx := z, k5vy := z,
    k6x := z, k6y := z, k6vx := z, k6vy := z }

/-- A spring, mirroring `struct Spring` of system.h. -/
structure Spring (α : Type) where
  ks : α
  kd : α
  restlen : α
  m1 : ℕ
  m2 : ℕ
  status : Status
deriving DecidableEq

/-- A default spring (C++ default constructor: zero scalars, endpoints 0,
status `S_ALIVE`). -/
def mkSpring {α : Type} (z : α) : Spring α :=
  { ks := z, kd := z, restlen := z, m1 := 0, m2 := 0, status := Status.aliveOnly }

/-- The simulation-parameter aggregate, mirroring `struct State` of state.h.
The per-force arrays `force_enabled`, `cur_grav_val`, `cur_misc_val`
(indexed by `FR_GRAV`, `FR_CMASS`, `FR_PTATTRACT`, `FR_WALL`) are flattened
into one field per force kind.  The UI-only fields `show_spring`,
`grid_snap`, `cur_gsnap` are omitted: the engine never reads them. -/
structure State where
  cur_mass : ℚ
  cur_rest : ℚ
  cur_ks : ℚ
  cur_kd : ℚ
  fix_mass : Bool
  center_id : ℤ
  fe_grav : Bool
  fe_cmass : Bool
  fe_ptattract : Bool
  fe_wall : Bool
  grav_val_grav : ℚ
  grav_val_cmass : ℚ
  grav_val_ptattract : ℚ
  grav_val_wall : ℚ
  misc_val_grav : ℚ
  misc_val_cmass : ℚ
  misc_val_ptattract : ℚ
  misc_val_wall : ℚ
  cur_visc : ℚ
  cur_stick : ℚ
  cur_dt : ℚ
  cur_prec : ℚ
  adaptive_step : Bool
  w_top : Bool
  w_left : Bool
  w_right : Bool
  w_bottom : Bool
  collide : Bool
deriving DecidableEq

/-- The `State::reset()` values (state.cpp). -/
def State.reset : State :=
  { cur_mass := 1, cur_rest := 1, cur_ks := 1, cur_kd := 1,
    fix_mass := false, center_id := -1,
    fe_grav := false, fe_cmass := false, fe_ptattract := false, fe_wall := false,
    grav_val_grav := 10, grav_val_cmass := 5, grav_val_ptattract := 10,
    grav_val_wall := 10000,
    misc_val_grav := 0, misc_val_cmass := 2, misc_val_ptattract := 0,
    misc_val_wall := 1,
    cur_visc := 0, cur_stick := 0, cur_dt := 0.025, cur_prec := 1,
    adaptive_step := false,
    w_top := true, w_left := true, w_right := true, w_bottom := true,
    collide := false }

/-- The entity store together with the simulation parameters: the data part
of `class System` (system.h).  `state.center_id` plays the role of the C++
`state_.center_id`. -/
structure System (α : Type) where
  masses : List (Mass α)
  springs : List (Spring α)
  state : State
deriving DecidableEq

/-- Applies `f` to the `i`-th element of a list, leaving the list unchanged
when `i` is out of range (C++ would be undefined there; all call sites in
the engine use in-range indices). -/
def listModify {α : Type} (l : List α) (i : ℕ) (f : α → α) : List α :=
  match l[i]? with
  | some a => l.set i (f a)
  | none => l

/-- `System::addMassParent(which, parent)` (system.cpp): appends `parent`
to the parent list of mass `which`. -/
def addMassParent {α : Type} (sys : System α) (which : ℕ) (parent : ℕ) :
    System α :=
  { sys with masses :=
      listModify sys.masses which (fun m => { m with parents := m.parents ++ [parent] }) }

/-- `System::deleteMassParent(which, parent)` (system.cpp): when mass
`which` is alive, erases the first occurrence of `parent` from its parent
list (`std::find` + `erase`). -/
def deleteMassParent {α : Type} (sys : System α) (which : ℕ) (parent : ℕ) :
    System α :=
  { sys with masses :=
      listModify sys.masses which (fun m =>
        if m.status.alive then { m with parents := m.parents.erase parent } else m) }

/-- `System::deleteSpring(which)` (system.cpp): when the spring is alive,
clear its status and remove it from both endpoints' parent lists. -/
def deleteSpring {α : Type} (sys : System α) (which : ℕ) : System α :=
  match sys.springs[which]? with
  | some sp =>
      if sp.status.alive then
        let sys1 : System α :=
          { sys with springs := sys.springs.set which { sp with status := Status.clear } }
        let sys2 := deleteMassParent sys1 sp.m1 which
        deleteMassParent sys2 sp.m2 which
      else sys
  | none => sys

/-- `System::deleteMass(which)` (system.cpp): when the mass is alive, clear
its status and delete every spring in its parent list; finally, if the mass
was the designated center, clear `center_id` (split here into
`deleteMassCore` and the `center_id` epilogue).  The C++ range-for iterates
the live `parents` vector, but `deleteSpring` can shrink only parent lists
of *alive* masses and the status of `which` has just been cleared, so the
vector is not mutated during the iteration and folding over the captured
list is faithful. -/
def deleteMassCore {α : Type} (sys : System α) (which : ℕ) : System α :=
  match sys.masses[which]? with
  | some m =>
      if m.status.alive then
        let sysA : System α :=
          { sys with masses := sys.masses.set which { m with status := Status.clear } }
        m.parents.foldl deleteSpring sysA
      else sys
  | none => sys

/-- The final `center_id` check of `System::deleteMass`. -/
def deleteMass {α : Type} (sys : System α) (which : ℕ) : System α :=
  let sys1 := deleteMassCore sys which
  if (which : ℤ) = sys1.state.center_id then
    { sys1 with state := { sys1.state with center_id := -1 } }
  else sys1

/-- Accumulator for the mass half of `System::evalSelection` (system.cpp):
`found`, the captured first-selected values and the three agreement flags.
Capture fields are 0/`false` until `found` is set, like the uninitialised
C++ locals, and are only read once `found` holds. -/
structure MassSel where
  found : Bool
  sel_mass : ℚ
  mass_same : Bool
  sel_elas : ℚ
  elas_same : Bool
  sel_fix : Bool
  fix_same : Bool
deriving DecidableEq

/-- One iteration of the mass loop of `System::evalSelection`.  Note the
source's fixed-flag agreement test is `if (fix_same && masses_[i].isFixed())
fix_same = false;`, i.e. it clears the flag whenever a later selected mass
is fixed, without comparing against `sel_fix`; the model reproduces that. -/
def massSelStep (acc : MassSel) (m : Mass ℚ) : MassSel :=
  if m.status.selected then
    if acc.found then
      { acc with
        mass_same := acc.mass_same && decide (m.mass = acc.sel_mass),
        elas_same := acc.elas_same && decide (m.elastic = acc.sel_elas),
        fix_same := acc.fix_same && !m.status.fixed }
    else
      { found := true,
        sel_mass := m.mass, mass_same := true,
        sel_elas := m.elastic, elas_same := true,
        sel_fix := m.status.fixed, fix_same := true }
  else acc

/-- Accumulator for the spring half of `System::evalSelection`. -/
structure SpringSel where
  found : Bool
  sel_ks : ℚ
  ks_same : Bool
  sel_kd : ℚ
  kd_same : Bool
deriving DecidableEq

/-- One iteration of the spring loop of `System::evalSelection`.  The source
contains the agreement test for `ks` twice in a row (a copy-paste slip:
`if (ks_same && springs_[i].ks != sel_ks) ks_same = false;` appears on two
consecutive lines) and never compares `kd`; the model reproduces both. -/
def springSelStep (acc : SpringSel) (s : Spring ℚ) : SpringSel :=
  if s.status.selected then
    if acc.found then
      let acc1 := { acc with ks_same := acc.ks_same && decide (s.ks = acc.sel_ks) }
      { acc1 with ks_same := acc1.ks_same && decide (s.ks = acc1.sel_ks) }
    else
      { found := true, sel_ks := s.ks, ks_same := true,
        sel_kd := s.kd, kd_same := true }
  else acc

/-- `System::evalSelection()` (system.cpp): scans the selected masses and
springs, mirrors agreed values into the parameters and returns whether any
parameter changed.  The model returns the updated parameter block together
with the `changed` flag. -/
def evalSelection (sys : System ℚ) : State × Bool :=
  let ms := sys.masses.foldl massSelStep
    ⟨false, 0, false, 0, false, false, false⟩
  let st := sys.state
  let p1 :=
    if ms.found then
      let s0 := st
      let c0 := false
      let s1 := if ms.mass_same && decide (ms.sel_mass ≠ s0.cur_mass) then
          { s0 with cur_mass := ms.sel_mass } else s0
      let c1 := if ms.mass_same && decide (ms.sel_mass ≠ s0.cur_mass) then true else c0
      let s2 := if ms.elas_same && decide (ms.sel_elas ≠ s1.cur_rest) then
          { s1 with cur_rest := ms.sel_elas } else s1
      let c2 := if ms.elas_same && decide (ms.sel_elas ≠ s1.cur_rest) then true else c1
      let s3 := if ms.fix_same && decide (ms.sel_fix ≠ s2.fix_mass) then
          { s2 with fix_mass := ms.sel_fix } else s2
      let c3 := if ms.fix_same && decide (ms.sel_fix ≠ s2.fix_mass) then true else c2
      (s3, c3)
    else (st, false)
  let ss := sys.springs.foldl springSelStep ⟨false, 0, false, 0, false⟩
  if ss.found then
    let s0 := p1.1
    let c0 := p1.2
    let s1 := if ss.ks_same && decide (ss.sel_ks ≠ s0.cur_ks) then
        { s0 with cur_ks := ss.sel_ks } else s0
    let c1 := if ss.ks_same && decide (ss.sel_ks ≠ s0.cur_ks) then true else c0
    let s2 := if ss.kd_same && decide (ss.sel_kd ≠ s1.cur_kd) then
        { s1 with cur_kd := ss.sel_kd } else s1
    let c2 := if ss.kd_same && decide (ss.sel_kd ≠ s1.cur_kd) then true else c1
    (s2, c2)
  else p1

/-- A mass with its parent list cleared: used to state that an operation
changes nothing about a mass except (possibly) its parent list. -/
def Mass.eraseParents {α : Type} (m : Mass α) : Mass α := { m with parents := [] }

/-- Killing a spring as `deleteSpring` does to its own slot. -/
def killSpring {α : Type} (sp : Spring α) : Spring α :=
  if sp.status.alive then { sp with status := Status.clear } else sp

theorem listModify_length {α : Type} (l : List α) (i : ℕ) (f : α → α) :
    (listModify l i f).length = l.length := by
  unfold listModify
  cases h : l[i]? <;> simp

theorem listModify_getElem? {α : Type} (l : List α) (i : ℕ) (f : α → α) (k : ℕ) :
    (listModify l i f)[k]? = if k = i then l[k]?.map f else l[k]? := by
  unfold listModify
  cases h : l[i]? with
  | none =>
      rcases eq_or_ne k i with rfl | hk
      · simp [h]
      · simp [hk]
  | some a =>
      rcases eq_or_ne k i with rfl | hk
      · have hlen : k < l.length := by
          by_contra hc
          simp [List.getElem?_eq_none (Nat.le_of_not_lt hc)] at h
        simp [List.getElem?_set_eq hlen, h]
      · simp [List.getElem?_set_ne (Ne.symm hk), hk]

theorem deleteMassParent_masses_length {α : Type} (sys : System α) (w p : ℕ) :
    (deleteMassParent sys w p).masses.length = sys.masses.length := by
  simp [deleteMassParent, listModify_length]

theorem deleteMassParent_springs {α : Type} (sys : System α) (w p : ℕ) :
    (deleteMassParent sys w p).springs = sys.springs := rfl

theorem deleteMassParent_state {α : Type} (sys : System α) (w p : ℕ) :
    (deleteMassParent sys w p).state = sys.state := rfl

theorem deleteMassParent_eraseParents {α : Type} (sys : System α) (w p k : ℕ) :
    (deleteMassParent sys w p).masses[k]?.map Mass.eraseParents =
      sys.masses[k]?.map Mass.eraseParents := by
  show (listModify sys.masses w _)[k]?.map Mass.eraseParents = _
  rw [listModify_getElem?]
  rcases eq_or_ne k w with rfl | hk
  · simp only [if_pos rfl, Option.map_map]
    cases sys.masses[k]? with
    | none => rfl
    | some m =>
        by_cases hal : m.status.alive <;>
          simp [hal, Function.comp, Mass.eraseParents]
  · rw [if_neg hk]

theorem deleteSpring_masses_length {α : Type} (sys : System α) (w : ℕ) :
    (deleteSpring sys w).masses.length = sys.masses.length := by
  unfold deleteSpring
  cases h : sys.springs[w]? with
  | none => rfl
  | some sp =>
      by_cases hal : sp.status.alive
      · simp [hal, deleteMassParent_masses_length]
      · simp [hal]

theorem deleteSpring_springs_length {α : Type} (sys : System α) (w : ℕ) :
    (deleteSpring sys w).springs.length = sys.springs.length := by
  unfold deleteSpring
  cases h : sys.springs[w]? with
  | none => rfl
  | some sp =>
      by_cases hal : sp.status.alive
      · simp [hal, deleteMassParent_springs]
      · simp [hal]

theorem deleteSpring_eraseParents {α : Type} (sys : System α) (w k : ℕ) :
    (deleteSpring sys w).masses[k]?.map Mass.eraseParents =
      sys.masses[k]?.map Mass.eraseParents := by
  unfold deleteSpring
  cases h : sys.springs[w]? with
  | none => rfl
  | some sp =>
      by_cases hal : sp.status.alive
      · simp [hal, deleteMassParent_eraseParents]
      · simp [hal]

theorem deleteSpring_springs_getElem? {α : Type} (sys : System α) (w s : ℕ) :
    (deleteSpring sys w).springs[s]? =
      if s = w then sys.springs[s]?.map killSpring else sys.springs[s]? := by
  unfold deleteSpring
  cases h : sys.springs[w]? with
  | none =>
      rcases eq_or_ne s w with rfl | hk
      · simp [h]
      · simp [hk]
  | some sp =>
      by_cases hal : sp.status.alive
      · simp only [hal, if_true, deleteMassParent_springs]
        rcases eq_or_ne s w with rfl | hk
        · have hlen : s < sys.springs.length := by
            by_contra hc
            simp [List.getElem?_eq_none (Nat.le_of_not_lt hc)] at h
          simp [List.getElem?_set_eq hlen, h, killSpring, hal]
        · simp [List.getElem?_set_ne (Ne.symm hk), hk]
      · simp only [hal, if_false]
        rcases eq_or_ne s w with rfl | hk
        · simp [h, killSpring, hal]
        · simp [hk]

theorem foldl_deleteSpring_masses_length {α : Type} (L : List ℕ) (sys : System α) :
    ((L.foldl deleteSpring sys).masses.length) = sys.masses.length := by
  induction L generalizing sys with
  | nil => rfl
  | cons p rest ih => simp [List.foldl_cons, ih, deleteSpring_masses_length]

theorem foldl_deleteSpring_springs_length {α : Type} (L : List ℕ) (sys : System α) :
    ((L.foldl deleteSpring sys).springs.length) = sys.springs.length := by
  induction L generalizing sys with
  | nil => rfl
  | cons p rest ih => simp [List.foldl_cons, ih, deleteSpring_springs_length]

theorem foldl_deleteSpring_eraseParents {α : Type} (L : List ℕ) (sys : System α) (k : ℕ) :
    ((L.foldl deleteSpring sys).masses[k]?.map Mass.eraseParents) =
      sys.masses[k]?.map Mass.eraseParents := by
  induction L generalizing sys with
  | nil => rfl
  | cons p rest ih => simp [List.foldl_cons, ih, deleteSpring_eraseParents]

theorem killSpring_idem {α : Type} (sp : Spring α) :
    killSpring (killSpring sp) = killSpring sp := by
  by_cases hal : sp.status.alive <;> simp [killSpring, hal, Status.clear]

theorem foldl_deleteSpring_springs_getElem? {α : Type} (L : List ℕ) (sys : System α)
    (s : ℕ) :
    ((L.foldl deleteSpring sys).springs[s]?) =
      if L.contains s then sys.springs[s]?.map killSpring else sys.springs[s]? := by
  induction L generalizing sys with
  | nil => simp
  | cons p rest ih =>
      rw [List.foldl_cons, ih, deleteSpring_springs_getElem?]
      rcases eq_or_ne s p with rfl | hk
      · simp only [if_pos rfl]
        have hc : ((s :: rest).contains s) = true := by simp
        rw [if_pos hc]
        by_cases hmem : rest.contains s = true
        · rw [if_pos hmem]
          cases sys.springs[s]? with
          | none => rfl
          | some sp => simp [killSpring_idem]
        · rw [if_neg hmem]
          exact if_pos trivial
      · have hc : ((p :: rest).contains s) = (rest.contains s) := by
          simp [List.contains_cons, hk]
        rw [if_neg hk, hc]

theorem map_status_eq_of_map_eraseParents {α : Type} {o o' : Option (Mass α)}
    (h : o.map Mass.eraseParents = o'.map Mass.eraseParents) :
    o.map Mass.status = o'.map Mass.status := by
  cases o with
  | none => cases o' with
    | none => rfl
    | some m => simp at h
  | some m => cases o' with
    | none => simp at h
    | some m' =>
        have hme : Mass.eraseParents m = Mass.eraseParents m' := by
          simpa using h
        have hms := congrArg Mass.status hme
        simpa [Mass.eraseParents] using hms

theorem killSpring_not_alive {α : Type} (sp : Spring α) :
    (killSpring sp).status.alive = false := by
  by_cases hal : sp.status.alive <;> simp [killSpring, hal, Status.clear]

theorem deleteMass_core_masses {α : Type} (sys : System α) (i : ℕ) :
    (deleteMass sys i).masses = (deleteMassCore sys i).masses := by
  unfold deleteMass
  dsimp only
  split <;> rfl

theorem deleteMass_core_springs {α : Type} (sys : System α) (i : ℕ) :
    (deleteMass sys i).springs = (deleteMassCore sys i).springs := by
  unfold deleteMass
  dsimp only
  split <;> rfl

theorem deleteMassCore_of_alive {α : Type} (sys : System α) (i : ℕ) (m : Mass α)
    (hm : sys.masses[i]? = some m) (halive : m.status.alive = true) :
    deleteMassCore sys i =
      m.parents.foldl deleteSpring
        { sys with masses := sys.masses.set i { m with status := Status.clear } } := by
  unfold deleteMassCore
  rw [hm]
  simp [halive]

theorem deleteMass_parts {α : Type} (sys : System α) (i : ℕ) (m : Mass α)
    (hm : sys.masses[i]? = some m) (halive : m.status.alive = true) :
    (deleteMass sys i).masses =
      (m.parents.foldl deleteSpring
        { sys with masses := sys.masses.set i { m with status := Status.clear } }).masses ∧
    (deleteMass sys i).springs =
      (m.parents.foldl deleteSpring
        { sys with masses := sys.masses.set i { m with status := Status.clear } }).springs := by
  rw [deleteMass_core_masses, deleteMass_core_springs,
    deleteMassCore_of_alive sys i m hm halive]
  exact ⟨rfl, rfl⟩

/-- C3: for an alive mass `i`, `deleteMass i` clears its status and kills
exactly the springs listed in its parent list (an already dead spring in
the list stays dead, a no-op); every other mass keeps its status, every
spring not in the list keeps its liveness, and no index shifts (both
container lengths are unchanged).  Specialising `s` over the parent list of
a mass with exactly two attached alive springs gives the claim's instance:
exactly those two springs die. -/
theorem c3_deleteMass_cascade (sys : System ℚ) (i j s : ℕ) (m mj : Mass ℚ)
    (sp : Spring ℚ)
    (hm : sys.masses[i]? = some m) (halive : m.status.alive = true)
    (hj : j ≠ i) (hmj : sys.masses[j]? = some mj)
    (hs : sys.springs[s]? = some sp) :
    (deleteMass sys i).masses.length = sys.masses.length ∧
    (deleteMass sys i).springs.length = sys.springs.length ∧
    (deleteMass sys i).masses[i]?.map Mass.status = some Status.clear ∧
    (deleteMass sys i).masses[j]?.map Mass.status = some mj.status ∧
    (deleteMass sys i).springs[s]?.map (fun q => q.status.alive) =
      some (sp.status.alive && !(m.parents.contains s)) := by
  obtain ⟨hA, hB⟩ := deleteMass_parts sys i m hm halive
  have hlen : i < sys.masses.length := by
    by_contra hc
    simp [List.getElem?_eq_none (Nat.le_of_not_lt hc)] at hm
  refine ⟨?_, ?_, ?_, ?_, ?_⟩
  · rw [hA, foldl_deleteSpring_masses_length]
    simp
  · rw [hB, foldl_deleteSpring_springs_length]
  · rw [hA]
    have h1 := foldl_deleteSpring_eraseParents m.parents
      { sys with masses := sys.masses.set i { m with status := Status.clear } } i
    have h2 := map_status_eq_of_map_eraseParents h1
    rw [h2]
    simp [List.getElem?_set_eq hlen]
  · rw [hA]
    have h1 := foldl_deleteSpring_eraseParents m.parents
      { sys with masses := sys.masses.set i { m with status := Status.clear } } j
    have h2 := map_status_eq_of_map_eraseParents h1
    rw [h2]
    simp [List.getElem?_set_ne (Ne.symm hj), hmj]
  · rw [hB, foldl_deleteSpring_springs_getElem?]
    by_cases hmem : m.parents.contains s = true
    · rw [if_pos hmem, hs]
      rw [hmem]
      simp [killSpring_not_alive]
    · rw [if_neg hmem, hs]
      have hmem' : m.parents.contains s = false := by
        simpa using hmem
      rw [hmem']
      simp

/-- Concrete store for the C3 witness: two alive masses, mass 0 having the
two alive springs 0 and 1 as parents. -/
def sysC3 : System ℚ :=
  { masses := [{ mkMass (0:ℚ) with parents := [0, 1] }, mkMass (0:ℚ)],
    springs := [{ mkSpring (0:ℚ) with m1 := 0, m2 := 1 },
                { mkSpring (0:ℚ) with m1 := 0, m2 := 1 }],
    state := State.reset }

theorem c3_deleteMass_cascade_witness :
    ((deleteMass sysC3 0).masses.length = sysC3.masses.length ∧
     (deleteMass sysC3 0).springs.length = sysC3.springs.length ∧
     (deleteMass sysC3 0).masses[0]?.map Mass.status = some Status.clear ∧
     (deleteMass sysC3 0).masses[1]?.map Mass.status =
       some (mkMass (0:ℚ)).status ∧
     (deleteMass sysC3 0).springs[0]?.map (fun q => q.status.alive) =
       some (({ mkSpring (0:ℚ) with m1 := 0, m2 := 1 } : Spring ℚ).status.alive &&
         !(({ mkMass (0:ℚ) with parents := [0, 1] } : Mass ℚ).parents.contains 0))) ∧
    ((deleteMass sysC3 0).springs[1]?.map (fun q => q.status.alive) =
       some (({ mkSpring (0:ℚ) with m1 := 0, m2 := 1 } : Spring ℚ).status.alive &&
         !(({ mkMass (0:ℚ) with parents := [0, 1] } : Mass ℚ).parents.contains 1))) :=
  ⟨c3_deleteMass_cascade sysC3 0 1 0 _ _ _ rfl rfl (by decide) rfl rfl,
   (c3_deleteMass_cascade sysC3 0 1 1 _ _ _ rfl rfl (by decide) rfl rfl).2.2.2.2⟩

/-- The mass-copy pass of `System::duplicateSelected()` (system.cpp): for
each selected mass, `createMass()` appends a copy with selection cleared and
parent list cleared, and the from/to index association is recorded.  The C++
loop re-evaluates `massCount()` each iteration, so it also scans the copies
it appends; those are never selected, so the extra iterations are no-ops and
the loop index never exceeds twice the original count — the recursion is
fuelled with `2·massCount+1`, which the caller supplies. -/
def massCopyLoop : ℕ → System ℚ × List ℕ × List ℕ → ℕ → System ℚ × List ℕ × List ℕ
  | 0, acc, _ => acc
  | fuel+1, acc, i =>
      match acc.1.masses[i]? with
      | some m =>
          if m.status.selected then
            let which := acc.1.masses.length
            let copy : Mass ℚ :=
              { m with status := { m.status with selected := false }, parents := [] }
            massCopyLoop fuel
              ({ acc.1 with masses := acc.1.masses ++ [copy] },
               acc.2.1 ++ [i], acc.2.2 ++ [which]) (i+1)
          else massCopyLoop fuel acc (i+1)
      | none => acc

/-- The endpoint-remapping loop of `System::duplicateSelected()`: walks the
from/to pairs while at least one endpoint of the copied spring `which` is
unmapped; a matching endpoint is rewritten to the copied mass and the copied
spring is registered in that mass's parent list.  The source mutates
`springs_[which]` in place; nothing reads that slot during the loop, so the
spring value is threaded through and written back by the caller. -/
def remapLoop (which : ℕ) :
    List (ℕ × ℕ) → System ℚ → Spring ℚ → Bool → Bool →
      System ℚ × Spring ℚ × Bool × Bool
  | [], sys, sp, d1, d2 => (sys, sp, d1, d2)
  | ft :: rest, sys, sp, d1, d2 =>
      if d1 && d2 then (sys, sp, d1, d2)
      else
        let hit1 := !d1 && decide (sp.m1 = ft.1)
        let sys1 := if hit1 then addMassParent sys ft.2 which else sys
        let sp1 := if hit1 then { sp with m1 := ft.2 } else sp
        let d1' := d1 || hit1
        let hit2 := !d2 && decide (sp1.m2 = ft.1)
        let sys2 := if hit2 then addMassParent sys1 ft.2 which else sys1
        let sp2 := if hit2 then { sp1 with m2 := ft.2 } else sp1
        let d2' := d2 || hit2
        remapLoop which rest sys2 sp2 d1' d2'

/-- One iteration of the spring-copy pass of `System::duplicateSelected()`:
a selected spring is copied (selection cleared), its endpoints are remapped
through the association, and a copy for which neither endpoint was mapped is
deleted again. -/
def springCopyStep (maps : List (ℕ × ℕ)) (sys : System ℚ) (i : ℕ) : System ℚ :=
  match sys.springs[i]? with
  | some s =>
      if s.status.selected then
        let which := sys.springs.length
        let copy : Spring ℚ := { s with status := { s.status with selected := false } }
        let sys1 : System ℚ := { sys with springs := sys.springs ++ [copy] }
        let r := remapLoop which maps sys1 copy false false
        let sys2 : System ℚ := { r.1 with springs := r.1.springs.set which r.2.1 }
        if !r.2.2.1 && !r.2.2.2 then deleteSpring sys2 which else sys2
      else sys
  | none => sys

/-- `System::duplicateSelected()` (system.cpp): the mass-copy pass followed
by the spring-copy pass over the springs that existed at entry
(`spring_start` is captured before any copy is made). -/
def duplicateSelected (sys : System ℚ) : System ℚ :=
  let spring_start := sys.springs.length
  let mc := massCopyLoop (2 * sys.masses.length + 1) (sys, [], []) 0
  let maps := mc.2.1.zip mc.2.2
  (List.range spring_start).foldl (springCopyStep maps) mc.1

/-- C5: duplicating a store holding exactly two selected masses joined by
one selected spring appends exactly two mass copies (selection cleared,
parent links cleared at copy time, then repointed at the one new spring)
and one spring copy whose endpoints are the two new masses and whose
`ks`/`kd`/`restlen` are the original's (the record copy keeps them); the
originals are untouched.  In general a selected spring neither of whose
endpoints was remapped is deleted again rather than left dangling: the
second store exhibits that with two unselected masses. -/
theorem c5_duplicateSelected (mA mB nA nB : Mass ℚ) (sp tq : Spring ℚ)
    (st st2 : State)
    (hA : mA.status.selected = true) (hB : mB.status.selected = true)
    (hsp : sp.status.selected = true) (h1 : sp.m1 = 0) (h2 : sp.m2 = 1)
    (hnA : nA.status.selected = false) (hnB : nB.status.selected = false)
    (htq : tq.status.selected = true) (htqa : tq.status.alive = true)
    (ht1 : tq.m1 = 0) (ht2 : tq.m2 = 1) :
    (duplicateSelected ⟨[mA, mB], [sp], st⟩).masses.length = 4 ∧
    (duplicateSelected ⟨[mA, mB], [sp], st⟩).springs.length = 2 ∧
    (duplicateSelected ⟨[mA, mB], [sp], st⟩).masses[2]? =
      some { mA with status := { mA.status with selected := false }, parents := [1] } ∧
    (duplicateSelected ⟨[mA, mB], [sp], st⟩).masses[3]? =
      some { mB with status := { mB.status with selected := false }, parents := [1] } ∧
    (duplicateSelected ⟨[mA, mB], [sp], st⟩).springs[1]? =
      some { sp with status := { sp.status with selected := false }, m1 := 2, m2 := 3 } ∧
    (duplicateSelected ⟨[mA, mB], [sp], st⟩).masses[0]? = some mA ∧
    (duplicateSelected ⟨[mA, mB], [sp], st⟩).masses[1]? = some mB ∧
    (duplicateSelected ⟨[mA, mB], [sp], st⟩).springs[0]? = some sp ∧
    (duplicateSelected ⟨[nA, nB], [tq], st2⟩).springs[1]?.map
      (fun q => q.status.alive) = some false := by
  constructor
  · simp [duplicateSelected, massCopyLoop, springCopyStep, remapLoop,
      addMassParent, listModify, List.range_succ,
      hA, hB, hsp, h1, h2]
  constructor
  · simp [duplicateSelected, massCopyLoop, springCopyStep, remapLoop,
      addMassParent, listModify, List.range_succ,
      hA, hB, hsp, h1, h2]
  constructor
  · simp [duplicateSelected, massCopyLoop, springCopyStep, remapLoop,
      addMassParent, listModify, List.range_succ,
      hA, hB, hsp, h1, h2]
  constructor
  · simp [duplicateSelected, massCopyLoop, springCopyStep, remapLoop,
      addMassParent, listModify, List.range_succ,
      hA, hB, hsp, h1, h2]
  constructor
  · simp [duplicateSelected, massCopyLoop, springCopyStep, remapLoop,
      addMassParent, listModify, List.range_succ,
      hA, hB, hsp, h1, h2]
  constructor
  · simp [duplicateSelected, massCopyLoop, springCopyStep, remapLoop,
      addMassParent, listModify, List.range_succ,
      hA, hB, hsp, h1, h2]
  constructor
  · simp [duplicateSelected, massCopyLoop, springCopyStep, remapLoop,
      addMassParent, listModify, List.range_succ,
      hA, hB, hsp, h1, h2]
  constructor
  · simp [duplicateSelected, massCopyLoop, springCopyStep, remapLoop,
      addMassParent, listModify, List.range_succ,
      hA, hB, hsp, h1, h2]
  · simp [duplicateSelected, massCopyLoop, springCopyStep, remapLoop,
      deleteSpring, deleteMassParent, addMassParent, listModify,
      List.range_succ, Status.clear, hnA, hnB, htq, htqa, ht1, ht2]

/-- A selected alive mass for the C5 witness. -/
def mSel : Mass ℚ := { mkMass (0:ℚ) with status := ⟨true, true, false, false⟩ }

/-- A selected alive spring joining masses 0 and 1 for the C5 witness. -/
def spSel : Spring ℚ :=
  { mkSpring (0:ℚ) with m1 := 0, m2 := 1, status := ⟨true, true, false, false⟩ }

theorem c5_duplicateSelected_witness :
    (duplicateSelected ⟨[mSel, mSel], [spSel], State.reset⟩).masses.length = 4 ∧
    (duplicateSelected ⟨[mSel, mSel], [spSel], State.reset⟩).springs.length = 2 ∧
    (duplicateSelected ⟨[mSel, mSel], [spSel], State.reset⟩).springs[1]? =
      some { spSel with status := { spSel.status with selected := false },
                        m1 := 2, m2 := 3 } ∧
    (duplicateSelected ⟨[mkMass (0:ℚ), mkMass (0:ℚ)], [spSel], State.reset⟩).springs[1]?.map
      (fun q => q.status.alive) = some false := by
  have h := c5_duplicateSelected mSel mSel (mkMass (0:ℚ)) (mkMass (0:ℚ)) spSel spSel
    State.reset State.reset rfl rfl rfl rfl rfl rfl rfl rfl rfl rfl rfl
  exact ⟨h.1, h.2.1, h.2.2.2.2.1, h.2.2.2.2.2.2.2.2⟩

/-- First selected spring of the C9 failing input: `ks = 1`, `kd = 1`. -/
def spK1 : Spring ℚ :=
  { mkSpring (0:ℚ) with ks := 1, kd := 1, status := ⟨true, true, false, false⟩ }

/-- Second selected spring of the C9 failing input: `ks = 1`, `kd = 2`. -/
def spK2 : Spring ℚ :=
  { mkSpring (0:ℚ) with ks := 1, kd := 2, status := ⟨true, true, false, false⟩ }

/-- The C9 failing input: no masses, two selected springs that agree on `ks`
but disagree on `kd`, parameters starting from `cur_kd = 5`. -/
def sysC9 : System ℚ :=
  ⟨[], [spK1, spK2], { State.reset with cur_kd := 5 }⟩

/-- C9 (code bug evaluated): the two selected springs disagree on `kd`
(`1 ≠ 2`), yet `evalSelection` copies the first selected spring's `kd` into
the parameters and reports a change — because the source's spring loop
tests the `ks` agreement twice (`if (ks_same && springs_[i].ks != sel_ks)`
on two consecutive lines, system.cpp) and never falsifies `kd_same`.  Under
the claim (copy a value only when all selected springs agree on it)
`cur_kd` should have stayed `5` and, with `ks` already equal to `cur_ks`,
no change should have been reported. -/
theorem c9_evalSelection_kd_bug :
    spK1.kd ≠ spK2.kd ∧
    (evalSelection sysC9).1.cur_kd = spK1.kd ∧
    (evalSelection sysC9).2 = true := by decide

/-- A C++ `double` for the NaN-divergence claim: a rational value or NaN.
Infinities are not modelled; they are not needed to settle the claim. -/
inductive Dbl
  | nan : Dbl
  | val : ℚ → Dbl
deriving DecidableEq

/-- IEEE subtraction restricted to this model: NaN propagates. -/
def Dbl.sub : Dbl → Dbl → Dbl
  | .val a, .val b => .val (a - b)
  | _, _ => .nan

/-- The IEEE comparison `d != 0.0`: true for NaN (every comparison with NaN
except `!=` is false) and for any nonzero value. -/
def Dbl.neZero : Dbl → Bool
  | .nan => true
  | .val q => decide (q ≠ 0)

/-- The exploded-object test of `Physics::advance` (phys.cpp lines 572-573):
`m.ax - m.ax != 0.0 || m.ay - m.ay != 0.0 || m.x - m.x != 0.0 ||
m.y - m.y != 0.0`.  Note that only position and acceleration are tested;
the velocity fields do not occur. -/
def explodeCheck (m : Mass Dbl) : Bool :=
  (m.ax.sub m.ax).neZero || (m.ay.sub m.ay).neZero ||
    (m.x.sub m.x).neZero || (m.y.sub m.y).neZero

/-- One iteration of the exploded-object guard inside the wall loop of
`Physics::advance` (phys.cpp lines 566-576): a free, alive mass failing the
self-consistency test is deleted via `System::deleteMass`. -/
def guardBody (acc : System Dbl) (i : ℕ) : System Dbl :=
  match acc.masses[i]? with
  | some m =>
      if m.status.alive && !m.status.fixed && explodeCheck m then deleteMass acc i
      else acc
  | none => acc

/-- The exploded-object guard of `Physics::advance`, isolated over the NaN
scalar model: the per-mass loop restricted to the delete test (the
stick/bounce handling of surviving masses, which is not about deletion, is
modelled separately over `ℚ`). -/
def explodeGuard (sys : System Dbl) : System Dbl :=
  (List.range sys.masses.length).foldl guardBody sys

theorem deleteMassCore_of_dead {α : Type} (sys : System α) (i : ℕ) (m : Mass α)
    (hm : sys.masses[i]? = some m) (hdead : m.status.alive = false) :
    deleteMassCore sys i = sys := by
  unfold deleteMassCore
  rw [hm]
  simp [hdead]

theorem deleteMassCore_of_none {α : Type} (sys : System α) (i : ℕ)
    (hm : sys.masses[i]? = none) : deleteMassCore sys i = sys := by
  unfold deleteMassCore
  rw [hm]

theorem deleteMass_masses_length {α : Type} (sys : System α) (i : ℕ) :
    (deleteMass sys i).masses.length = sys.masses.length := by
  rw [deleteMass_core_masses]
  cases h : sys.masses[i]? with
  | none => rw [deleteMassCore_of_none sys i h]
  | some m =>
      by_cases hal : m.status.alive
      · rw [deleteMassCore_of_alive sys i m h hal, foldl_deleteSpring_masses_length]
        simp
      · rw [deleteMassCore_of_dead sys i m h (by simpa using hal)]

theorem deleteMass_eraseParents_ne {α : Type} (sys : System α) (i k : ℕ)
    (hk : k ≠ i) :
    (deleteMass sys i).masses[k]?.map Mass.eraseParents =
      sys.masses[k]?.map Mass.eraseParents := by
  rw [deleteMass_core_masses]
  cases h : sys.masses[i]? with
  | none => rw [deleteMassCore_of_none sys i h]
  | some m =>
      by_cases hal : m.status.alive
      · rw [deleteMassCore_of_alive sys i m h hal, foldl_deleteSpring_eraseParents]
        simp [List.getElem?_set_ne (Ne.symm hk)]
      · rw [deleteMassCore_of_dead sys i m h (by simpa using hal)]

theorem deleteMass_dead_self {α : Type} (sys : System α) (i : ℕ) (m : Mass α)
    (hm : sys.masses[i]? = some m) (halive : m.status.alive = true) :
    (deleteMass sys i).masses[i]?.map (fun q => q.status.alive) = some false := by
  rw [deleteMass_core_masses, deleteMassCore_of_alive sys i m hm halive]
  have hlen : i < sys.masses.length := by
    by_contra hc
    simp [List.getElem?_eq_none (Nat.le_of_not_lt hc)] at hm
  have h1 := foldl_deleteSpring_eraseParents m.parents
    { sys with masses := sys.masses.set i { m with status := Status.clear } } i
  have h2 := map_status_eq_of_map_eraseParents h1
  have h3 : ((m.parents.foldl deleteSpring
      { sys with masses := sys.masses.set i { m with status := Status.clear } }).masses[i]?.map
        Mass.status) = some Status.clear := by
    rw [h2]
    simp [List.getElem?_set_eq hlen]
  cases hq : (m.parents.foldl deleteSpring
      { sys with masses := sys.masses.set i { m with status := Status.clear } }).masses[i]? with
  | none => rw [hq] at h3; simp at h3
  | some q =>
      rw [hq] at h3
      have : q.status = Status.clear := by simpa using h3
      simp [hq, this, Status.clear]

theorem deleteMass_preserves_dead {α : Type} (sys : System α) (j k : ℕ)
    (h : sys.masses[k]?.map (fun q => q.status.alive) = some false) :
    (deleteMass sys j).masses[k]?.map (fun q => q.status.alive) = some false := by
  rcases eq_or_ne k j with rfl | hk
  · rw [deleteMass_core_masses]
    cases hm : sys.masses[k]? with
    | none => rw [hm] at h; simp at h
    | some m =>
        have hal : m.status.alive = false := by
          rw [hm] at h; simpa using h
        rw [deleteMassCore_of_dead sys k m hm hal]
        exact h
  · have he := deleteMass_eraseParents_ne sys j k hk
    have hs := map_status_eq_of_map_eraseParents he
    cases hm : sys.masses[k]? with
    | none => rw [hm] at h; simp at h
    | some m =>
        rw [hm] at h hs
        cases hq : (deleteMass sys j).masses[k]? with
        | none => rw [hq] at hs; simp at hs
        | some q =>
            rw [hq] at hs
            have : q.status = m.status := by simpa using hs
            simp only [hq, Option.map_some']
            rw [this]
            simpa using h

theorem explodeCheck_congr {m m' : Mass Dbl}
    (h : Mass.eraseParents m = Mass.eraseParents m') :
    explodeCheck m = explodeCheck m' := by
  have hax : m.ax = m'.ax := by
    simpa [Mass.eraseParents] using congrArg Mass.ax h
  have hay : m.ay = m'.ay := by
    simpa [Mass.eraseParents] using congrArg Mass.ay h
  have hx : m.x = m'.x := by
    simpa [Mass.eraseParents] using congrArg Mass.x h
  have hy : m.y = m'.y := by
    simpa [Mass.eraseParents] using congrArg Mass.y h
  unfold explodeCheck
  rw [hax, hay, hx, hy]

theorem status_congr_of_eraseParents {α : Type} {m m' : Mass α}
    (h : Mass.eraseParents m = Mass.eraseParents m') : m.status = m'.status := by
  simpa [Mass.eraseParents] using congrArg Mass.status h

theorem guardBody_none (acc : System Dbl) (t : ℕ)
    (hmt : acc.masses[t]? = none) : guardBody acc t = acc := by
  unfold guardBody
  rw [hmt]

theorem guardBody_hit (acc : System Dbl) (t : ℕ) (m : Mass Dbl)
    (hmt : acc.masses[t]? = some m)
    (hcond : (m.status.alive && !m.status.fixed && explodeCheck m) = true) :
    guardBody acc t = deleteMass acc t := by
  unfold guardBody
  rw [hmt]
  simp [hcond]

theorem guardBody_skip (acc : System Dbl) (t : ℕ) (m : Mass Dbl)
    (hmt : acc.masses[t]? = some m)
    (hcond : ¬ ((m.status.alive && !m.status.fixed && explodeCheck m) = true)) :
    guardBody acc t = acc := by
  unfold guardBody
  rw [hmt]
  simp [hcond]

theorem guardBody_eraseParents_ne (acc : System Dbl) (t k : ℕ) (hk : k ≠ t) :
    (guardBody acc t).masses[k]?.map Mass.eraseParents =
      acc.masses[k]?.map Mass.eraseParents := by
  cases h : acc.masses[t]? with
  | none => rw [guardBody_none acc t h]
  | some m =>
      by_cases hcond : (m.status.alive && !m.status.fixed && explodeCheck m) = true
      · rw [guardBody_hit acc t m h hcond]
        exact deleteMass_eraseParents_ne acc t k hk
      · rw [guardBody_skip acc t m h hcond]

theorem guardBody_preserves_dead (acc : System Dbl) (t k : ℕ)
    (h : acc.masses[k]?.map (fun q => q.status.alive) = some false) :
    (guardBody acc t).masses[k]?.map (fun q => q.status.alive) = some false := by
  cases hm : acc.masses[t]? with
  | none => rw [guardBody_none acc t hm]; exact h
  | some m =>
      by_cases hcond : (m.status.alive && !m.status.fixed && explodeCheck m) = true
      · rw [guardBody_hit acc t m hm hcond]
        exact deleteMass_preserves_dead acc t k h
      · rw [guardBody_skip acc t m hm hcond]
        exact h

theorem foldl_guardBody_preserves_dead (L : List ℕ) (acc : System Dbl) (k : ℕ)
    (h : acc.masses[k]?.map (fun q => q.status.alive) = some false) :
    ((L.foldl guardBody acc).masses[k]?.map (fun q => q.status.alive)) = some false := by
  induction L generalizing acc with
  | nil => exact h
  | cons t rest ih => exact ih _ (guardBody_preserves_dead acc t k h)

theorem guardAux_eraseParents_notmem (L : List ℕ) (acc : System Dbl) (k : ℕ)
    (hk : k ∉ L) :
    ((L.foldl guardBody acc).masses[k]?.map Mass.eraseParents) =
      acc.masses[k]?.map Mass.eraseParents := by
  induction L generalizing acc with
  | nil => rfl
  | cons t rest ih =>
      rw [List.foldl_cons, ih _ (fun hmem => hk (List.mem_cons_of_mem t hmem)),
        guardBody_eraseParents_ne]
      exact fun he => hk (he ▸ List.mem_cons_self t rest)

theorem guardAux_eraseParents_skip (sys : System Dbl) (j : ℕ) (mj : Mass Dbl)
    (hmj : sys.masses[j]? = some mj) (hchk : explodeCheck mj = false) :
    ∀ n : ℕ, (((List.range n).foldl guardBody sys).masses[j]?.map Mass.eraseParents) =
      sys.masses[j]?.map Mass.eraseParents := by
  intro n
  induction n with
  | zero => rfl
  | succ n ih =>
      rw [List.range_succ, List.foldl_append, List.foldl_cons, List.foldl_nil]
      rcases eq_or_ne j n with rfl | hk
      · have hj' : ∃ mj', ((List.range j).foldl guardBody sys).masses[j]? = some mj' ∧
            Mass.eraseParents mj' = Mass.eraseParents mj := by
          rw [hmj] at ih
          cases hq : ((List.range j).foldl guardBody sys).masses[j]? with
          | none => rw [hq] at ih; simp at ih
          | some q =>
              rw [hq] at ih
              exact ⟨q, rfl, by simpa using ih⟩
        obtain ⟨mj', hq, he⟩ := hj'
        have hc : explodeCheck mj' = false := by
          rw [explodeCheck_congr he]; exact hchk
        have hcond : ¬ ((mj'.status.alive && !mj'.status.fixed && explodeCheck mj') = true) := by
          rw [hc]; simp
        rw [guardBody_skip _ j mj' hq hcond]
        exact ih
      · rw [guardBody_eraseParents_ne _ _ _ hk]
        exact ih

/-- C2 (amended): after the exploded-object guard, a free alive mass whose
position or acceleration fails the self-consistency test (`x`, `y`, `ax` or
`ay` is NaN) is no longer alive, a mass passing the test keeps its status
unchanged, and no index shifts.  The deletion happens through the ordinary
`deleteMass` cascade and the guard is a total function with no error
channel: the removal is silent. -/
theorem c2_explodeGuard_amended (sys : System Dbl) (i j : ℕ) (m mj : Mass Dbl)
    (hm : sys.masses[i]? = some m) (halive : m.status.alive = true)
    (hfix : m.status.fixed = false) (hchk : explodeCheck m = true)
    (hmj : sys.masses[j]? = some mj) (hchkj : explodeCheck mj = false) :
    (explodeGuard sys).masses[i]?.map (fun q => q.status.alive) = some false ∧
    (explodeGuard sys).masses[j]?.map Mass.status = some mj.status ∧
    (explodeGuard sys).masses.length = sys.masses.length := by
  have hlen : i < sys.masses.length := by
    by_contra hc
    simp [List.getElem?_eq_none (Nat.le_of_not_lt hc)] at hm
  refine ⟨?_, ?_, ?_⟩
  · -- split the index range at `i`: prefix, the killing step, suffix
    have hsplit : List.range sys.masses.length =
        List.range (i+1) ++
          List.map (fun x => (i+1) + x) (List.range (sys.masses.length - (i+1))) := by
      rw [← List.range_add]
      congr 1
      omega
    unfold explodeGuard
    rw [hsplit, List.foldl_append, List.range_succ, List.foldl_append,
      List.foldl_cons, List.foldl_nil]
    have hpre : (((List.range i).foldl guardBody sys).masses[i]?.map Mass.eraseParents) =
        sys.masses[i]?.map Mass.eraseParents :=
      guardAux_eraseParents_notmem (List.range i) sys i (by simp)
    rw [hm] at hpre
    obtain ⟨m', hq, he⟩ : ∃ m', ((List.range i).foldl guardBody sys).masses[i]? = some m' ∧
        Mass.eraseParents m' = Mass.eraseParents m := by
      cases hq : ((List.range i).foldl guardBody sys).masses[i]? with
      | none => rw [hq] at hpre; simp at hpre
      | some q =>
          rw [hq] at hpre
          exact ⟨q, rfl, by simpa using hpre⟩
    have hst : m'.status = m.status := status_congr_of_eraseParents he
    have hc' : explodeCheck m' = true := by rw [explodeCheck_congr he]; exact hchk
    have hkill : (guardBody ((List.range i).foldl guardBody sys) i).masses[i]?.map
        (fun q => q.status.alive) = some false := by
      have hcond : (m'.status.alive && !m'.status.fixed && explodeCheck m') = true := by
        rw [hst, hc', halive, hfix]
        rfl
      rw [guardBody_hit _ i m' hq hcond]
      exact deleteMass_dead_self _ i m' hq (by rw [hst]; exact halive)
    exact foldl_guardBody_preserves_dead _ _ i hkill
  · have h1 := guardAux_eraseParents_skip sys j mj hmj hchkj sys.masses.length
    have h2 := map_status_eq_of_map_eraseParents h1
    rw [hmj] at h2
    exact h2.trans (by simp)
  · have hbody : ∀ (acc : System Dbl) (t : ℕ),
        (guardBody acc t).masses.length = acc.masses.length := by
      intro acc t
      cases hmt : acc.masses[t]? with
      | none => rw [guardBody_none acc t hmt]
      | some mt =>
          by_cases hcond : (mt.status.alive && !mt.status.fixed && explodeCheck mt) = true
          · rw [guardBody_hit acc t mt hmt hcond]
            exact deleteMass_masses_length acc t
          · rw [guardBody_skip acc t mt hmt hcond]
    have hfold : ∀ (L : List ℕ) (acc : System Dbl),
        ((L.foldl guardBody acc).masses.length) = acc.masses.length := by
      intro L
      induction L with
      | nil => intro acc; rfl
      | cons t rest ih => intro acc; rw [List.foldl_cons, ih, hbody]
    exact hfold _ _

/-- Context of a `Physics` object: the canvas size (`width_`, `height_`)
together with interpretations of the C library functions used by phys.cpp
and the `double` constant `M_PI`.  Keeping these abstract keeps every
definition computable; theorems quantify over the interpretations. -/
structure Ctx where
  width : ℚ
  height : ℚ
  piQ : ℚ
  sqrtQ : ℚ → ℚ
  sinQ : ℚ → ℚ
  cosQ : ℚ → ℚ
  powQ : ℚ → ℚ → ℚ
  expQ : ℚ → ℚ
  logQ : ℚ → ℚ

/-- `DT_MIN` (phys.cpp). -/
def DT_MIN : ℚ := 0.0001

/-- `DT_MAX` (phys.cpp). -/
def DT_MAX : ℚ := 0.5

/-- `STICK_MAG` (phys.cpp). -/
def STICK_MAG : ℚ := 1

/-- `DEF_TSTEP` (state.h). -/
def DEF_TSTEP : ℚ := 0.025

/-- `sphereSize` (misc.cpp); C++ `int` division truncates toward zero. -/
def sphereSize (rad : ℤ) : ℤ :=
  let rad1 := Int.tdiv (25 + 2 * rad) 2
  let rad2 := if rad1 < 15 then 15 else rad1
  let size := if rad2 * 2 ≥ 30 then Int.tdiv (rad2 * 2 - 30) 10 else 0
  if size > 4 then 4 else size

/-- `sphereRadius` (misc.cpp). -/
def sphereRadius (size : ℤ) : ℤ := Int.tdiv (size * 10 + 30) 2

/-- `screenRadius` (misc.h). -/
def screenRadius (radius : ℤ) : ℤ := sphereRadius (sphereSize radius)

/-- The ubiquitous free-mass test
`(m.status & S_ALIVE) && !(m.status & S_FIXED)`. -/
def isFree {α : Type} (m : Mass α) : Bool := m.status.alive && !m.status.fixed

/-- C `fabs`, written so that it evaluates by kernel reduction (the
`abs` of the order structure does not). -/
def fabsQ (q : ℚ) : ℚ := if q < 0 then -q else q

/-- Overwrites a mass's acceleration: every write of the force accumulator
touches only `ax`/`ay`, and routing them through this helper makes that
syntactically evident. -/
def setAccel (m : Mass ℚ) (a b : ℚ) : Mass ℚ := { m with ax := a, ay := b }

/-- Lines 41-55 of phys.cpp: the applied-force center.  Defaults to the
canvas center; a designated alive center mass overrides it; a designated
dead mass clears `center_id`.  (`center_rad` is the constant 1.) -/
def resolveCenter (c : Ctx) (sys : System ℚ) : ℚ × ℚ × System ℚ :=
  if 0 ≤ sys.state.center_id then
    let m := sys.masses[sys.state.center_id.toNat]?.getD (mkMass 0)
    if m.status.alive then (m.x, m.y, sys)
    else (c.width / 2, c.height / 2,
      { sys with state := { sys.state with center_id := -1 } })
  else (c.width / 2, c.height / 2, sys)

/-- The center-of-mass pre-pass (phys.cpp 72-81): mass-weighted sums of
position and velocity over the free masses other than `center_id`, as
`(msum, mixix, mixiy, mivix, miviy)`. -/
def cmSums (sys : System ℚ) : ℚ × ℚ × ℚ × ℚ × ℚ :=
  sys.masses.enum.foldl
    (fun acc p =>
      if (p.1 : ℤ) ≠ sys.state.center_id && isFree p.2 then
        (acc.1 + p.2.mass,
         acc.2.1 + p.2.mass * p.2.x,
         acc.2.2.1 + p.2.mass * p.2.y,
         acc.2.2.2.1 + p.2.mass * p.2.vx,
         acc.2.2.2.2 + p.2.mass * p.2.vy)
      else acc)
    (0, 0, 0, 0, 0)

/-- Lines 83-94 of phys.cpp: the uniform center-of-mass acceleration term
`(ogx, ogy)` (each starts at 0 and receives one `-=`). -/
def cmOg (sys : System ℚ) (gval gmisc cx cy : ℚ) : ℚ × ℚ :=
  let s := cmSums sys
  let msum := s.1
  if msum ≠ 0 then
    let mixix := s.2.1 / msum - cx
    let mixiy := s.2.2.1 / msum - cy
    let mivix := s.2.2.2.1 / msum
    let miviy := s.2.2.2.2 / msum
    (-(gval * mixix + gmisc * mivix) / msum,
     -(gval * mixiy + gmisc * miviy) / msum)
  else (0, 0)

/-- The spring compression/damping pass for one spring (phys.cpp 183-216).
A dead spring, or one whose endpoints coincide (`dx` and `dy` both zero,
the divide-by-zero guard) contributes nothing.  The update re-reads the
first endpoint before writing the second, matching the C++ reference
aliasing. -/
def applySpring (c : Ctx) (ms : List (Mass ℚ)) (s : Spring ℚ) : List (Mass ℚ) :=
  if s.status.alive then
    let m1 := ms[s.m1]?.getD (mkMass 0)
    let m2 := ms[s.m2]?.getD (mkMass 0)
    let dx := m1.x - m2.x
    let dy := m1.y - m2.y
    if dx ≠ 0 ∨ dy ≠ 0 then
      let mag := c.sqrtQ (dx * dx + dy * dy)
      let force0 := s.ks * (s.restlen - mag)
      let force1 :=
        if s.kd ≠ 0 then
          force0 - s.kd * (((m1.vx - m2.vx) * dx + (m1.vy - m2.vy) * dy) / mag)
        else force0
      let force := force1 / mag
      let forcex := force * dx
      let forcey := force * dy
      let mass1 := m1.mass
      let mass2 := m2.mass
      let ms1 := ms.set s.m1 (setAccel m1 (m1.ax + forcex / mass1) (m1.ay + forcey / mass1))
      let m2' := ms1[s.m2]?.getD (mkMass 0)
      ms1.set s.m2 (setAccel m2' (m2'.ax - forcex / mass2) (m2'.ay - forcey / mass2))
    else ms
  else ms

/-- The gravity/center-force/viscous-drag write (phys.cpp 98-110) for the
indexed mass `p`: the designated center mass does not receive the
center-of-mass term `(ogx, ogy)`. -/
def gravityApply (st : State) (gx gy ogx ogy : ℚ) (p : ℕ × Mass ℚ) : Mass ℚ :=
  let m := p.2
  if isFree m then
    if (p.1 : ℤ) ≠ st.center_id then
      setAccel m (gx + ogx - st.cur_visc * m.vx) (gy + ogy - st.cur_visc * m.vy)
    else
      setAccel m (gx - st.cur_visc * m.vx) (gy - st.cur_visc * m.vy)
  else m

/-- The point-attraction write (phys.cpp 117-137) for one free mass:
inverse-power pull toward the center, with the minimum-separation clamp
`m.radius + center_rad` (`center_rad` is 1). -/
def ptAttractApply (c : Ctx) (st : State) (center_x center_y : ℚ)
    (m : Mass ℚ) : Mass ℚ :=
  if isFree m then
    let dx0 := center_x - m.x
    let dy0 := center_y - m.y
    let mag0 := c.sqrtQ (dx0 * dx0 + dy0 * dy0)
    let clamped := decide (mag0 < (m.radius : ℚ) + 1)
    let dx := if clamped then dx0 * (mag0 / ((m.radius : ℚ) + 1)) else dx0
    let dy := if clamped then dy0 * (mag0 / ((m.radius : ℚ) + 1)) else dy0
    let mag := if clamped then (m.radius : ℚ) + 1 else mag0
    let fmag := st.grav_val_ptattract / c.powQ mag st.misc_val_ptattract
    setAccel m (m.ax + fmag * dx / mag) (m.ay + fmag * dy / mag)
  else m

/-- The wall attract/repel write (phys.cpp 147-177) for one free mass:
one inverse-power term per enabled wall the mass has not passed, with the
clearance floored at 1 (`gval` is the negated magnitude, as in the
source). -/
def wallForceApply (c : Ctx) (st : State) (m : Mass ℚ) : Mass ℚ :=
  let rad : ℚ := ((screenRadius m.radius : ℤ) : ℚ)
  if isFree m then
    let gvalW := -st.grav_val_wall
    let gmiscW := st.misc_val_wall
    let dax1 : ℚ :=
      if st.w_left && decide (m.x - rad ≥ 0) then
        let d0 := m.x - rad
        let d1 := if d0 < 1 then 1 else d0; -(gvalW / c.powQ d1 gmiscW)
      else 0
    let dax2 : ℚ :=
      if st.w_right && decide (c.width - rad - m.x ≥ 0) then
        let d0 := c.width - rad - m.x
        let d1 := if d0 < 1 then 1 else d0; gvalW / c.powQ d1 gmiscW
      else 0
    let day1 : ℚ :=
      if st.w_top && decide (c.height - rad - m.y ≥ 0) then
        let d0 := c.height - rad - m.y
        let d1 := if d0 < 1 then 1 else d0; gvalW / c.powQ d1 gmiscW
      else 0
    let day2 : ℚ :=
      if st.w_bottom && decide (m.y - rad ≥ 0) then
        let d0 := m.y - rad
        let d1 := if d0 < 1 then 1 else d0; -(gvalW / c.powQ d1 gmiscW)
      else 0
    setAccel m (m.ax + (dax1 + dax2)) (m.ay + (day1 + day2))
  else m

/-- `Physics::accumulateAccel()` (phys.cpp 38-217).  The gravity macros
`COORD_DX`/`COORD_DY` are not defined under src/; following `deltaX`/
`deltaY` of misc.h they are the identity and negation.  The per-mass loops
read only the iterated mass and loop-invariant data, so they are maps;
the spring pass is a fold carrying the mass list. -/
def accumulateAccel (c : Ctx) (sys0 : System ℚ) : System ℚ :=
  let rc := resolveCenter c sys0
  let center_x := rc.1
  let center_y := rc.2.1
  let sys := rc.2.2
  let st := sys.state
  -- gravity (58-64)
  let gx : ℚ :=
    if st.fe_grav then st.grav_val_grav * c.sinQ (st.misc_val_grav * c.piQ / 180) else 0
  let gy : ℚ :=
    if st.fe_grav then -(st.grav_val_grav * c.cosQ (st.misc_val_grav * c.piQ / 180)) else 0
  -- center of mass force (67-95)
  let og : ℚ × ℚ :=
    if st.fe_cmass then cmOg sys st.grav_val_cmass st.misc_val_cmass center_x center_y
    else (0, 0)
  -- gravity, CM and viscous drag (98-110)
  let masses1 := sys.masses.enum.map (gravityApply st gx gy og.1 og.2)
  -- point attraction (113-138)
  let masses2 :=
    if st.fe_ptattract then masses1.map (ptAttractApply c st center_x center_y)
    else masses1
  -- wall attract/repel (141-178)
  let masses3 :=
    if st.fe_wall then masses2.map (wallForceApply c st) else masses2
  -- spring effects (183-216)
  let masses4 := sys.springs.foldl (applySpring c) masses3
  { sys with masses := masses4 }

/-- The k1 step of `Physics::rungeKutta` (phys.cpp 224-245). -/
def rk4Stage1 (h : ℚ) (m : Mass ℚ) : Mass ℚ :=
  if isFree m then
    let m := { m with cur_x := m.x, cur_y := m.y, cur_vx := m.vx, cur_vy := m.vy,
                      k1x := m.vx * h, k1y := m.vy * h,
                      k1vx := m.ax * h, k1vy := m.ay * h }
    { m with x := m.cur_x + m.k1x / 2, y := m.cur_y + m.k1y / 2,
             vx := m.cur_vx + m.k1vx / 2, vy := m.cur_vy + m.k1vy / 2 }
  else m

/-- The k2 step of `Physics::rungeKutta` (249-263). -/
def rk4Stage2 (h : ℚ) (m : Mass ℚ) : Mass ℚ :=
  if isFree m then
    let m := { m with k2x := m.vx * h, k2y := m.vy * h,
                      k2vx := m.ax * h, k2vy := m.ay * h }
    { m with x := m.cur_x + m.k2x / 2, y := m.cur_y + m.k2y / 2,
             vx := m.cur_vx + m.k2vx / 2, vy := m.cur_vy + m.k2vy / 2 }
  else m

/-- The k3 step of `Physics::rungeKutta` (267-281). -/
def rk4Stage3 (h : ℚ) (m : Mass ℚ) : Mass ℚ :=
  if isFree m then
    let m := { m with k3x := m.vx * h, k3y := m.vy * h,
                      k3vx := m.ax * h, k3vy := m.ay * h }
    { m with x := m.cur_x + m.k3x, y := m.cur_y + m.k3y,
             vx := m.cur_vx + m.k3vx, vy := m.cur_vy + m.k3vy }
  else m

/-- The k4 step of `Physics::rungeKutta` (285-294). -/
def rk4Stage4 (h : ℚ) (m : Mass ℚ) : Mass ℚ :=
  if isFree m then
    { m with k4x := m.vx * h, k4y := m.vy * h,
             k4vx := m.ax * h, k4vy := m.ay * h }
  else m

/-- The combination step of `Physics::rungeKutta` (296-312). -/
def rk4Combine (testloc : Bool) (m : Mass ℚ) : Mass ℚ :=
  if isFree m then
    if testloc then
      { m with test_x := m.cur_x + (m.k1x/2 + m.k2x + m.k3x + m.k4x/2)/3,
               test_y := m.cur_y + (m.k1y/2 + m.k2y + m.k3y + m.k4y/2)/3,
               test_vx := m.cur_vx + (m.k1vx/2 + m.k2vx + m.k3vx + m.k4vx/2)/3,
               test_vy := m.cur_vy + (m.k1vy/2 + m.k2vy + m.k3vy + m.k4vy/2)/3 }
    else
      { m with x := m.cur_x + (m.k1x/2 + m.k2x + m.k3x + m.k4x/2)/3,
               y := m.cur_y + (m.k1y/2 + m.k2y + m.k3y + m.k4y/2)/3,
               vx := m.cur_vx + (m.k1vx/2 + m.k2vx + m.k3vx + m.k4vx/2)/3,
               vy := m.cur_vy + (m.k1vy/2 + m.k2vy + m.k3vy + m.k4vy/2)/3 }
  else m

/-- `Physics::rungeKutta(h, testloc)` (phys.cpp 219-313). -/
def rungeKutta (c : Ctx) (h : ℚ) (testloc : Bool) (sys : System ℚ) : System ℚ :=
  let s1 := accumulateAccel c sys
  let s1 := { s1 with masses := s1.masses.map (rk4Stage1 h) }
  let s2 := accumulateAccel c s1
  let s2 := { s2 with masses := s2.masses.map (rk4Stage2 h) }
  let s3 := accumulateAccel c s2
  let s3 := { s3 with masses := s3.masses.map (rk4Stage3 h) }
  let s4 := accumulateAccel c s3
  let s4 := { s4 with masses := s4.masses.map (rk4Stage4 h) }
  { s4 with masses := s4.masses.map (rk4Combine testloc) }

/-- The k1 step of `Physics::adaptiveRungeKutta` (phys.cpp 335-356). -/
def rkfStage1 (h : ℚ) (m : Mass ℚ) : Mass ℚ :=
  if isFree m then
    let m := { m with cur_x := m.x, cur_y := m.y, cur_vx := m.vx, cur_vy := m.vy,
                      k1x := m.vx * h, k1y := m.vy * h,
                      k1vx := m.ax * h, k1vy := m.ay * h }
    { m with x := m.cur_x + 0.2 * m.k1x, y := m.cur_y + 0.2 * m.k1y,
             vx := m.cur_vx + 0.2 * m.k1vx, vy := m.cur_vy + 0.2 * m.k1vy }
  else m

/-- The k2 step of `Physics::adaptiveRungeKutta` (360-374). -/
def rkfStage2 (h : ℚ) (m : Mass ℚ) : Mass ℚ :=
  if isFree m then
    let m := { m with k2x := m.vx * h, k2y := m.vy * h,
                      k2vx := m.ax * h, k2vy := m.ay * h }
    { m with x := m.cur_x + (3/40) * m.k1x + (9/40) * m.k2x,
             y := m.cur_y + (3/40) * m.k1y + (9/40) * m.k2y,
             vx := m.cur_vx + (3/40) * m.k1vx + (9/40) * m.k2vx,
             vy := m.cur_vy + (3/40) * m.k1vy + (9/40) * m.k2vy }
  else m

/-- The k3 step of `Physics::adaptiveRungeKutta` (378-392). -/
def rkfStage3 (h : ℚ) (m : Mass ℚ) : Mass ℚ :=
  if isFree m then
    let m := { m with k3x := m.vx * h, k3y := m.vy * h,
                      k3vx := m.ax * h, k3vy := m.ay * h }
    { m with x := m.cur_x + 0.3 * m.k1x + (-0.9) * m.k2x + 1.2 * m.k3x,
             y := m.cur_y + 0.3 * m.k1y + (-0.9) * m.k2y + 1.2 * m.k3y,
             vx := m.cur_vx + 0.3 * m.k1vx + (-0.9) * m.k2vx + 1.2 * m.k3vx,
             vy := m.cur_vy + 0.3 * m.k1vy + (-0.9) * m.k2vy + 1.2 * m.k3vy }
  else m

/-- The k4 step of `Physics::adaptiveRungeKutta` (396-414). -/
def rkfStage4 (h : ℚ) (m : Mass ℚ) : Mass ℚ :=
  if isFree m then
    let m := { m with k4x := m.vx * h, k4y := m.vy * h,
                      k4vx := m.ax * h, k4vy := m.ay * h }
    { m with x := m.cur_x + (-11/54) * m.k1x + 2.5 * m.k2x
                    + (-70/27) * m.k3x + (35/27) * m.k4x,
             y := m.cur_y + (-11/54) * m.k1y + 2.5 * m.k2y
                    + (-70/27) * m.k3y + (35/27) * m.k4y,
             vx := m.cur_vx + (-11/54) * m.k1vx + 2.5 * m.k2vx
                    + (-70/27) * m.k3vx + (35/27) * m.k4vx,
             vy := m.cur_vy + (-11/54) * m.k1vy + 2.5 * m.k2vy
                    + (-70/27) * m.k3vy + (35/27) * m.k4vy }
  else m

/-- The k5 step of `Physics::adaptiveRungeKutta` (418-440). -/
def rkfStage5 (h : ℚ) (m : Mass ℚ) : Mass ℚ :=
  if isFree m then
    let m := { m with k5x := m.vx * h, k5y := m.vy * h,
                      k5vx := m.ax * h, k5vy := m.ay * h }
    { m with x := m.cur_x + (1631/55926) * m.k1x + (175/512) * m.k2x
                    + (575/13824) * m.k3x + (44275/110592) * m.k4x
                    + (253/4096) * m.k5x,
             y := m.cur_y + (1631/55926) * m.k1y + (175/512) * m.k2y
                    + (575/13824) * m.k3y + (44275/110592) * m.k4y
                    + (253/4096) * m.k5y,
             vx := m.cur_vx + (1631/55926) * m.k1vx + (175/512) * m.k2vx
                    + (575/13824) * m.k3vx + (44275/110592) * m.k4vx
                    + (253/4096) * m.k5vx,
             vy := m.cur_vy + (1631/55926) * m.k1vy + (175/512) * m.k2vy
                    + (575/13824) * m.k3vy + (44275/110592) * m.k4vy
                    + (253/4096) * m.k5vy }
  else m

/-- The k6 step of `Physics::adaptiveRungeKutta` (444-453). -/
def rkfStage6 (h : ℚ) (m : Mass ℚ) : Mass ℚ :=
  if isFree m then
    { m with k6x := m.vx * h, k6y := m.vy * h,
             k6vx := m.ax * h, k6vy := m.ay * h }
  else m

/-- The per-mass embedded error of `Physics::adaptiveRungeKutta` (460-476):
the absolute difference of the 5th- and 4th-order combinations, summed over
both axes of position and velocity. -/
def rkfErr (m : Mass ℚ) : ℚ :=
  let errx := ((37/378) - (2825/27648)) * m.k1x + ((250/621) - (18575/48384)) * m.k3x
      + ((125/594) - (13525/55296)) * m.k4x + (-277/14336) * m.k5x
      + ((512/1771) - 0.25) * m.k6x
  let erry := ((37/378) - (2825/27648)) * m.k1y + ((250/621) - (18575/48384)) * m.k3y
      + ((125/594) - (13525/55296)) * m.k4y + (-277/14336) * m.k5y
      + ((512/1771) - 0.25) * m.k6y
  let errvx := ((37/378) - (2825/27648)) * m.k1vx + ((250/621) - (18575/48384)) * m.k3vx
      + ((125/594) - (13525/55296)) * m.k4vx + (-277/14336) * m.k5vx
      + ((512/1771) - 0.25) * m.k6vx
  let errvy := ((37/378) - (2825/27648)) * m.k1vy + ((250/621) - (18575/48384)) * m.k3vy
      + ((125/594) - (13525/55296)) * m.k4vy + (-277/14336) * m.k5vy
      + ((512/1771) - 0.25) * m.k6vy
  fabsQ errx + fabsQ erry + fabsQ errvx + fabsQ errvy

/-- The worst-case error loop of `Physics::adaptiveRungeKutta` (456-481):
floor `maxerr = 0.00001`, maximised over the free masses. -/
def rkfMaxerr (ms : List (Mass ℚ)) : ℚ :=
  ms.foldl
    (fun acc m =>
      if isFree m then (if rkfErr m > acc then rkfErr m else acc) else acc)
    0.00001

/-- The 5th-order commit of `Physics::adaptiveRungeKutta` (506-521). -/
def rkfCommit (m : Mass ℚ) : Mass ℚ :=
  if isFree m then
    { m with x := m.cur_x + (37/378) * m.k1x + (250/621) * m.k3x
                    + (125/594) * m.k4x + (512/1771) * m.k6x,
             y := m.cur_y + (37/378) * m.k1y + (250/621) * m.k3y
                    + (125/594) * m.k4y + (512/1771) * m.k6y,
             vx := m.cur_vx + (37/378) * m.k1vx + (250/621) * m.k3vx
                    + (125/594) * m.k4vx + (512/1771) * m.k6vx,
             vy := m.cur_vy + (37/378) * m.k1vy + (250/621) * m.k3vy
                    + (125/594) * m.k4vy + (512/1771) * m.k6vy }
  else m

/-- The rejection rollback of `Physics::adaptiveRungeKutta` (490-498):
every free mass returns to the snapshot taken at the top of `advance`. -/
def rkfRollback (m : Mass ℚ) : Mass ℚ :=
  if isFree m then
    { m with x := m.old_x, y := m.old_y, vx := m.old_vx, vy := m.old_vy }
  else m

/-- The step clamp at the `restart` label of `Physics::adaptiveRungeKutta`
(326-329): `cur_dt` is forced into `[DT_MIN, DT_MAX]`. -/
def clampDt (sys : System ℚ) : System ℚ :=
  let st := sys.state
  let st := if st.cur_dt > DT_MAX then { st with cur_dt := DT_MAX } else st
  let st := if st.cur_dt < DT_MIN then { st with cur_dt := DT_MIN } else st
  { sys with state := st }

/-- The six force-evaluate/stage passes of one adaptive attempt
(phys.cpp 333-453). -/
def rkfStages (c : Ctx) (h : ℚ) (sys : System ℚ) : System ℚ :=
  let s1 := accumulateAccel c sys
  let s1 := { s1 with masses := s1.masses.map (rkfStage1 h) }
  let s2 := accumulateAccel c s1
  let s2 := { s2 with masses := s2.masses.map (rkfStage2 h) }
  let s3 := accumulateAccel c s2
  let s3 := { s3 with masses := s3.masses.map (rkfStage3 h) }
  let s4 := accumulateAccel c s3
  let s4 := { s4 with masses := s4.masses.map (rkfStage4 h) }
  let s5 := accumulateAccel c s4
  let s5 := { s5 with masses := s5.masses.map (rkfStage5 h) }
  let s6 := accumulateAccel c s5
  { s6 with masses := s6.masses.map (rkfStage6 h) }

/-- The clamped step size an adaptive attempt will use. -/
def rkfDt0 (sys : System ℚ) : ℚ := (clampDt sys).state.cur_dt

/-- The scaled error ratio of one adaptive attempt: the worst-case embedded
error divided by the user precision `cur_prec` (phys.cpp 484; `cur_prec`
is never written by the engine, so reading it after the stages matches the
source). -/
def rkfErrRatio (c : Ctx) (sys : System ℚ) : ℚ :=
  rkfMaxerr (rkfStages c (rkfDt0 sys) (clampDt sys)).masses /
    (rkfStages c (rkfDt0 sys) (clampDt sys)).state.cur_prec

/-- One attempt of `Physics::adaptiveRungeKutta` (the body between the
`restart` label and either the commit or the `goto`): clamp, six stages,
error ratio, then accept-and-grow, or reject (roll back and shrink), or
accept because `cur_dt` is already at the floor.  The boolean is true when
the attempt committed. -/
def rkfIter (c : Ctx) (sys0 : System ℚ) : System ℚ × Bool :=
  let sysC := clampDt sys0
  let h := sysC.state.cur_dt
  let sysS := rkfStages c h sysC
  let maxerr := rkfMaxerr sysS.masses / sysS.state.cur_prec
  if maxerr < 1 then
    let sysG := { sysS with state := { sysS.state with
      cur_dt := sysS.state.cur_dt * (0.9 * c.expQ (-(c.logQ maxerr) / 8)) } }
    ({ sysG with masses := sysG.masses.map rkfCommit }, true)
  else
    if sysS.state.cur_dt > DT_MIN then
      let sysR := { sysS with masses := sysS.masses.map rkfRollback }
      ({ sysR with state := { sysR.state with
        cur_dt := sysR.state.cur_dt * (0.9 * c.expQ (-(c.logQ maxerr) / 4)) } }, false)
    else
      ({ sysS with masses := sysS.masses.map rkfCommit }, true)

/-- `Physics::adaptiveRungeKutta()` (phys.cpp 320-522): attempts are
retried (`goto restart`) until one commits.  The source loop terminates
because a rejected attempt multiplies `cur_dt` by `0.9·exp(−ln maxerr/4) ≤
0.9` (for `maxerr ≥ 1` under the real `exp`/`log`) until the clamp reaches
`DT_MIN`, where every attempt commits; with the library functions abstract
the recursion is fuelled instead. -/
def adaptiveRungeKutta (c : Ctx) : ℕ → System ℚ → System ℚ
  | 0, sys => sys
  | fuel+1, sys =>
      let r := rkfIter c sys
      if r.2 then r.1 else adaptiveRungeKutta c fuel r.1

/-- The snapshot loop at the top of `Physics::advance` (phys.cpp 531-540). -/
def snapshotMass (m : Mass ℚ) : Mass ℚ :=
  if isFree m then
    { m with old_x := m.x, old_y := m.y, old_vx := m.vx, old_vy := m.vy }
  else m

/-- `stick_mag = STICK_MAG * mst.cur_dt * mst.cur_stick` (phys.cpp 563). -/
def stickMag (st : State) : ℚ := STICK_MAG * st.cur_dt * st.cur_stick

/-- The self-inequality test `q - q != 0.0` of the exploded-object guard,
over exact rationals (where it is identically false; its IEEE content is
analysed separately over `Dbl`). -/
def selfNeqQ (q : ℚ) : Bool := decide (q - q ≠ 0)

/-- The wall-stick test of `Physics::advance` (phys.cpp 578-601): the mass
was at rest in the snapshot, its snapshot position is within 0.5 of an
enabled left/right wall (or failing that, bottom/top wall), and its new
wall-normal velocity is below `stick_mag / mass`. -/
def wallStickTest (c : Ctx) (st : State) (sm : ℚ) (m : Mass ℚ) : Bool :=
  let rad : ℚ := ((screenRadius m.radius : ℤ) : ℚ)
  decide (m.old_vx = 0) && decide (m.old_vy = 0) &&
    (if (st.w_left && decide (fabsQ (m.old_x - rad) < 0.5))
        || (st.w_right && decide (fabsQ (m.old_x - c.width + rad) < 0.5)) then
       decide (fabsQ m.vx < sm / m.mass)
     else if (st.w_bottom && decide (fabsQ (m.old_y - rad) < 0.5))
        || (st.w_top && decide (fabsQ (m.old_y - c.height + rad) < 0.5)) then
       decide (fabsQ m.vy < sm / m.mass)
     else false)

/-- The left/right wall bounce of `Physics::advance` (phys.cpp 603-634). -/
def bounceLR (c : Ctx) (st : State) (m : Mass ℚ) : Mass ℚ :=
  let rad : ℚ := ((screenRadius m.radius : ℤ) : ℚ)
  if st.w_left && decide (m.x < rad) && decide (m.old_x ≥ rad) then
    let m := { m with x := rad }
    if m.vx < 0 then
      let m := { m with vx := -m.vx * m.elastic, vy := m.vy * m.elastic }
      if m.vx > 0 then
        let m := { m with vx := m.vx - STICK_MAG * st.cur_stick / m.mass }
        if m.vx < 0 then { m with vx := 0, vy := 0 } else m
      else m
    else m
  else if st.w_right && decide (m.x > c.width - rad) && decide (m.old_x ≤ c.width - rad) then
    let m := { m with x := c.width - rad }
    if m.vx > 0 then
      let m := { m with vx := -m.vx * m.elastic, vy := m.vy * m.elastic }
      if m.vx < 0 then
        let m := { m with vx := m.vx + STICK_MAG * st.cur_stick / m.mass }
        if m.vx > 0 then { m with vx := 0, vy := 0 } else m
      else m
    else m
  else m

/-- The bottom/top wall bounce of `Physics::advance` (phys.cpp 635-666). -/
def bounceTB (c : Ctx) (st : State) (m : Mass ℚ) : Mass ℚ :=
  let rad : ℚ := ((screenRadius m.radius : ℤ) : ℚ)
  if st.w_bottom && decide (m.y < rad) && decide (m.old_y ≥ rad) then
    let m := { m with y := rad }
    if m.vy < 0 then
      let m := { m with vy := -m.vy * m.elastic, vx := m.vx * m.elastic }
      if m.vy > 0 then
        let m := { m with vy := m.vy - STICK_MAG * st.cur_stick / m.mass }
        if m.vy < 0 then { m with vx := 0, vy := 0 } else m
      else m
    else m
  else if st.w_top && decide (m.y > c.height - rad) && decide (m.old_y ≤ c.height - rad) then
    let m := { m with y := c.height - rad }
    if m.vy > 0 then
      let m := { m with vy := -m.vy * m.elastic, vx := m.vx * m.elastic }
      if m.vy < 0 then
        let m := { m with vy := m.vy + STICK_MAG * st.cur_stick / m.mass }
        if m.vy > 0 then { m with vx := 0, vy := 0 } else m
      else m
    else m
  else m

/-- The per-mass outcome of the wall loop when the mass is not deleted:
stick (with `continue`), otherwise the left/right then bottom/top bounce
chains in sequence. -/
def wallUpd (c : Ctx) (st : State) (sm : ℚ) (m : Mass ℚ) : Mass ℚ :=
  if isFree m then
    if wallStickTest c st sm m then
      { m with vx := 0, vy := 0, x := m.old_x, y := m.old_y }
    else bounceTB c st (bounceLR c st m)
  else m

/-- One iteration of the wall loop of `Physics::advance` (phys.cpp
566-668): free masses failing the self-inequality test are deleted,
the rest go through stick/bounce.  Only the four wall flags and the
stickiness are read from the state, none of which the loop ever writes,
so passing `st` by value is faithful. -/
def wallBody (c : Ctx) (st : State) (sm : ℚ) (acc : System ℚ) (i : ℕ) : System ℚ :=
  let m := acc.masses[i]?.getD (mkMass 0)
  if isFree m then
    if selfNeqQ m.ax || selfNeqQ m.ay || selfNeqQ m.x || selfNeqQ m.y then
      deleteMass acc i
    else { acc with masses := acc.masses.set i (wallUpd c st sm m) }
  else acc

/-- The wall loop of `Physics::advance`. -/
def wallPhase (c : Ctx) (st : State) (sm : ℚ) (sys : System ℚ) : System ℚ :=
  (List.range sys.masses.length).foldl (wallBody c st sm) sys

/-- The inner body of the oblique-impact loop (phys.cpp 688-739), for the
pair `(i, j)`; `m1x`, `m1y`, `m1radius` are hoisted by the source before
the inner loop (positions and statuses are never written by the loop, so
they equal the current values).  `m1`'s velocities are re-read at each
contact, as the source's references do. -/
def collideBody (c : Ctx) (i : ℕ) (m1x m1y m1radius : ℚ) (acc2 : System ℚ)
    (j : ℕ) : System ℚ :=
  let m2 := acc2.masses[j]?.getD (mkMass 0)
  if m2.status.alive then
    let m2radius : ℚ := if m2.status.fixed then 4 else (m2.radius : ℚ)
    let dx := m2.x - m1x
    let dy := m2.y - m1y
    let dxq := dx * dx
    let dyq := dy * dy
    let sumxyq := dxq + dyq
    let mag := c.sqrtQ sumxyq
    if mag < m1radius + m2radius then
      let m1c := acc2.masses[i]?.getD (mkMass 0)
      let m1vx := m1c.vx
      let m1vy := m1c.vy
      let m2vx := m2.vx
      let m2vy := m2.vy
      if (m1vx - m2vx) * dx > 0 ∨ (m1vy - m2vy) * dy > 0 then
        let dx := if dx = 0 then (1 / 10000000000 : ℚ) else dx
        let acc3 :=
          if !m1c.status.fixed then
            let rr :=
              if m2.status.fixed then 1 + (m1c.elastic + m2.elastic) / 2
              else (1 + (m1c.elastic + m2.elastic) / 2) / (1 + m1c.mass / m2.mass)
            let newvx := (m1vx - (m1vx - m2vx) * rr) * (dxq / sumxyq)
              + m1vx * (dyq / sumxyq) - (m1vy - m2vy) * rr * (dx * dy / sumxyq)
            let newvy := (newvx - m1vx) * (dy / dx) + m1vy
            { acc2 with masses := acc2.masses.set i { m1c with vx := newvx, vy := newvy } }
          else acc2
        let m2c := acc3.masses[j]?.getD (mkMass 0)
        if !m2c.status.fixed then
          let rr :=
            if m1c.status.fixed then 1 + (m1c.elastic + m2c.elastic) / 2
            else (1 + (m1c.elastic + m2c.elastic) / 2) / (1 + m2c.mass / m1c.mass)
          let newvx2 := (m2vx - (m2vx - m1vx) * rr) * (dxq / sumxyq)
            + m2vx * (dyq / sumxyq) - (m2vy - m1vy) * rr * (dx * dy / sumxyq)
          let newvy2 := (newvx2 - m2vx) * (dy / dx) + m2vy
          { acc3 with masses := acc3.masses.set j { m2c with vx := newvx2, vy := newvy2 } }
        else acc3
      else acc2
    else acc2
  else acc2

/-- The outer body of the oblique-impact loop (phys.cpp 674-741). -/
def collideOuter (c : Ctx) (acc : System ℚ) (i : ℕ) : System ℚ :=
  let m1 := acc.masses[i]?.getD (mkMass 0)
  if m1.status.alive then
    let m1radius : ℚ := if m1.status.fixed then 4 else (m1.radius : ℚ)
    (List.range' (i+1) (acc.masses.length - (i+1))).foldl
      (collideBody c i m1.x m1.y m1radius) acc
  else acc

/-- The oblique-impact pass of `Physics::advance` (phys.cpp 670-742),
active only when the collision flag is set. -/
def collisionPhase (c : Ctx) (sys : System ℚ) : System ℚ :=
  if sys.state.collide then
    (List.range sys.masses.length).foldl (collideOuter c) sys
  else sys

/-- The static locals `time_elapsed` and `num_since` of `Physics::advance`
(phys.cpp 527-528), threaded explicitly. -/
structure PaceState where
  time_elapsed : ℚ
  num_since : ℤ
deriving DecidableEq

/-- The frame pacer at the tail of `Physics::advance` (phys.cpp 745-759). -/
def framePace (dt : ℚ) (ps : PaceState) : PaceState × Bool :=
  let te := ps.time_elapsed + dt
  if te > 0.05 then ({ time_elapsed := te - 0.05, num_since := 0 }, true)
  else
    let ns := ps.num_since + 1
    if ns > 8 then ({ time_elapsed := te, num_since := 0 }, true)
    else ({ time_elapsed := te, num_since := ns }, false)

/-- The step-selection block of `Physics::advance` (phys.cpp 542-561):
adaptive stepping is used only when enabled and at least one spring is
alive; without springs `cur_dt` is forced to `DEF_TSTEP` and the fixed
stepper runs. -/
def integratorPhase (c : Ctx) (fuel : ℕ) (sys : System ℚ) : System ℚ :=
  if sys.state.adaptive_step then
    if sys.springs.any (fun s => s.status.alive) then
      adaptiveRungeKutta c fuel sys
    else
      rungeKutta c DEF_TSTEP false
        { sys with state := { sys.state with cur_dt := DEF_TSTEP } }
  else rungeKutta c sys.state.cur_dt false sys

/-- `Physics::advance()` (phys.cpp 524-760): snapshot, one integration
step, wall contact resolution, optional pairwise collisions, then the
frame pacer.  `fuel` bounds the adaptive retries (see
`adaptiveRungeKutta`); the result is the new system, the new pacer state
and the returned boolean. -/
def advance (c : Ctx) (fuel : ℕ) (sys0 : System ℚ) (ps : PaceState) :
    System ℚ × PaceState × Bool :=
  let sys2 := integratorPhase c fuel
    { sys0 with masses := sys0.masses.map snapshotMass }
  let sys3 := wallPhase c sys2.state (stickMag sys2.state) sys2
  let sys4 := collisionPhase c sys3
  let pr := framePace sys4.state.cur_dt ps
  (sys4, pr.1, pr.2)

/-- A fixed interpretation of the library functions for concrete runs: the
claims settled on concrete inputs are arranged not to depend on it. -/
def ctx0 : Ctx :=
  { width := 100, height := 100, piQ := 0,
    sqrtQ := fun _ => 0, sinQ := fun _ => 0, cosQ := fun _ => 0,
    powQ := fun _ _ => 1, expQ := fun _ => 1, logQ := fun _ => 0 }

theorem framePace_char (dt : ℚ) (ps : PaceState) :
    ((framePace dt ps).2 =
      (decide (ps.time_elapsed + dt > 0.05) || decide (ps.num_since + 1 > 8))) ∧
    (framePace dt ps).1.num_since =
      (if (framePace dt ps).2 = true then 0 else ps.num_since + 1) ∧
    (framePace dt ps).1.time_elapsed =
      (if ps.time_elapsed + dt > 0.05 then ps.time_elapsed + dt - 0.05
       else ps.time_elapsed + dt) := by
  unfold framePace
  by_cases h1 : ps.time_elapsed + dt > 0.05
  · simp [h1]
  · by_cases h2 : ps.num_since + 1 > 8
    · simp [h1, h2]
    · simp [h1, h2]

/-- C7: `advance` reports a redraw exactly when the accumulated simulated
time (grown by the post-step `cur_dt`) exceeds 0.05, or when this is the
ninth call in a row in which it did not (`num_since`, the count of
consecutive non-due calls since the last redraw, has reached 8); a redraw
resets the consecutive counter, the time branch retires 0.05 from the
accumulator, and a non-due call increments the counter. -/
theorem c7_advance_redraw (c : Ctx) (fuel : ℕ) (sys : System ℚ)
    (ps : PaceState) :
    ((advance c fuel sys ps).2.2 =
      (decide (ps.time_elapsed + (advance c fuel sys ps).1.state.cur_dt > 0.05)
        || decide (ps.num_since + 1 > 8))) ∧
    (advance c fuel sys ps).2.1.num_since =
      (if (advance c fuel sys ps).2.2 = true then 0 else ps.num_since + 1) ∧
    (advance c fuel sys ps).2.1.time_elapsed =
      (if ps.time_elapsed + (advance c fuel sys ps).1.state.cur_dt > 0.05
       then ps.time_elapsed + (advance c fuel sys ps).1.state.cur_dt - 0.05
       else ps.time_elapsed + (advance c fuel sys ps).1.state.cur_dt) :=
  framePace_char ((advance c fuel sys ps).1.state.cur_dt) ps

/-- C8: a spring between coincident endpoints is skipped entirely by the
force accumulator's spring pass: the mass list, in particular both
endpoints' accelerations, is unchanged by that spring and the length
normalisation (the division by `mag`) is never reached. -/
theorem c8_zero_length_spring (c : Ctx) (ms : List (Mass ℚ)) (s : Spring ℚ)
    (halive : s.status.alive = true)
    (hdx : (ms[s.m1]?.getD (mkMass 0)).x = (ms[s.m2]?.getD (mkMass 0)).x)
    (hdy : (ms[s.m1]?.getD (mkMass 0)).y = (ms[s.m2]?.getD (mkMass 0)).y) :
    applySpring c ms s = ms := by
  unfold applySpring
  simp [halive, hdx, hdy]

/-- A spring for the C8 witness, alive between masses 0 and 1. -/
def spC8 : Spring ℚ := { mkSpring (0:ℚ) with m1 := 0, m2 := 1 }

theorem c8_zero_length_spring_witness :
    applySpring ctx0 [mkMass (0:ℚ), mkMass (0:ℚ)] spC8 =
      [mkMass (0:ℚ), mkMass (0:ℚ)] :=
  c8_zero_length_spring ctx0 [mkMass (0:ℚ), mkMass (0:ℚ)] spC8 rfl rfl rfl

theorem fabsQ_nonneg (q : ℚ) : 0 ≤ fabsQ q := by
  unfold fabsQ
  split
  · linarith
  · linarith

theorem selfNeqQ_eq_false (q : ℚ) : selfNeqQ q = false := by
  simp [selfNeqQ]

theorem set_getD_self {α : Type} (l : List α) (i : ℕ) (d : α)
    (h : i < l.length) : l.set i (l[i]?.getD d) = l := by
  apply List.ext_getElem?
  intro k
  rcases eq_or_ne k i with rfl | hk
  · rw [List.getElem?_set_eq h]
    cases hv : l[k]? with
    | none =>
        exfalso
        rw [List.getElem?_eq_none_iff] at hv
        omega
    | some v => simp [hv]
  · rw [List.getElem?_set_ne (Ne.symm hk)]

/-- Over exact rationals the exploded-object branch of the wall loop is
unreachable, so each iteration just rewrites its own mass. -/
theorem wallBody_eq (c : Ctx) (st : State) (sm : ℚ) (acc : System ℚ) (i : ℕ)
    (hi : i < acc.masses.length) :
    wallBody c st sm acc i =
      { acc with masses :=
          acc.masses.set i (wallUpd c st sm (acc.masses[i]?.getD (mkMass 0))) } := by
  unfold wallBody
  by_cases hf : isFree (acc.masses[i]?.getD (mkMass 0)) = true
  · rw [if_pos hf]
    simp only [selfNeqQ_eq_false, Bool.or_self, Bool.false_or]
    rfl
  · rw [if_neg hf]
    have hupd : wallUpd c st sm (acc.masses[i]?.getD (mkMass 0)) =
        acc.masses[i]?.getD (mkMass 0) := by
      unfold wallUpd
      rw [if_neg hf]
    rw [hupd, set_getD_self _ _ _ hi]

theorem wallAux (c : Ctx) (st : State) (sm : ℚ) (sys : System ℚ) :
    ∀ n : ℕ, n ≤ sys.masses.length →
      (((List.range n).foldl (wallBody c st sm) sys).masses.length =
        sys.masses.length) ∧
      (∀ k : ℕ, ((List.range n).foldl (wallBody c st sm) sys).masses[k]? =
        if k < n then sys.masses[k]?.map (wallUpd c st sm) else sys.masses[k]?) := by
  intro n
  induction n with
  | zero => exact fun _ => ⟨rfl, fun k => by simp⟩
  | succ n ih =>
      intro hn
      obtain ⟨ihl, ihk⟩ := ih (by omega)
      rw [List.range_succ, List.foldl_append, List.foldl_cons, List.foldl_nil]
      have hacc : n < ((List.range n).foldl (wallBody c st sm) sys).masses.length := by
        omega
      rw [wallBody_eq c st sm _ n hacc]
      constructor
      · simp [ihl]
      · intro k
        show (((List.range n).foldl (wallBody c st sm) sys).masses.set n _)[k]? = _
        rcases eq_or_ne k n with rfl | hk
        · rw [List.getElem?_set_eq hacc, ihk k]
          simp only [lt_irrefl, if_false, if_pos (Nat.lt_succ_self k)]
          cases hv : sys.masses[k]? with
          | none =>
              exfalso
              rw [List.getElem?_eq_none_iff] at hv
              omega
          | some v => simp [hv]
        · rw [List.getElem?_set_ne (Ne.symm hk), ihk k]
          rcases Nat.lt_or_ge k n with hlt | hge
          · rw [if_pos hlt, if_pos (by omega)]
          · rw [if_neg (by omega), if_neg (by omega)]

theorem wallPhase_getElem? (c : Ctx) (st : State) (sm : ℚ) (sys : System ℚ)
    (k : ℕ) :
    (wallPhase c st sm sys).masses[k]? =
      sys.masses[k]?.map (wallUpd c st sm) := by
  obtain ⟨hl, hk⟩ := wallAux c st sm sys sys.masses.length le_rfl
  rw [wallPhase, hk k]
  rcases Nat.lt_or_ge k sys.masses.length with hlt | hge
  · rw [if_pos hlt]
  · rw [if_neg (by omega), List.getElem?_eq_none hge]
    rfl

/-- C4: a free mass that was at rest in the snapshot, resting next to an
enabled wall (within 0.5 units; left/right walls take precedence over
bottom/top exactly as in the source), and whose post-step wall-normal
velocity is below `stick_mag / mass` with `stick_mag = STICK_MAG · cur_dt ·
cur_stick` (and `STICK_MAG = 1`), leaves contact resolution pinned: both
velocity components zeroed and the position restored to the snapshot,
overriding the integrator's result.  With stickiness 0 the threshold is
`0 / mass = 0` and no mass can pass the stick test, so no mass is ever
pinned this way. -/
theorem c4_wall_stick (c : Ctx) (st : State) (sys : System ℚ) (i : ℕ)
    (m m' : Mass ℚ)
    (hm : sys.masses[i]? = some m) (hfree : isFree m = true)
    (hstick : wallStickTest c st (stickMag st) m = true)
    (hmass : 0 < m'.mass) :
    (wallPhase c st (stickMag st) sys).masses[i]? =
      some { m with vx := 0, vy := 0, x := m.old_x, y := m.old_y } ∧
    wallStickTest c { st with cur_stick := 0 }
      (stickMag { st with cur_stick := 0 }) m' = false := by
  constructor
  · rw [wallPhase_getElem?, hm]
    have : wallUpd c st (stickMag st) m =
        { m with vx := 0, vy := 0, x := m.old_x, y := m.old_y } := by
      unfold wallUpd
      rw [if_pos hfree, if_pos hstick]
    simp [this]
  · have hsm : stickMag { st with cur_stick := 0 } = 0 := by
      simp [stickMag]
    rw [hsm]
    unfold wallStickTest
    dsimp only
    have hvx : decide (fabsQ m'.vx < 0 / m'.mass) = false := by
      rw [zero_div]
      simp only [decide_eq_false_iff_not, not_lt]
      exact fabsQ_nonneg _
    have hvy : decide (fabsQ m'.vy < 0 / m'.mass) = false := by
      rw [zero_div]
      simp only [decide_eq_false_iff_not, not_lt]
      exact fabsQ_nonneg _
    split
    · rw [hvx]
      simp
    · split
      · rw [hvy]
        simp
      · simp

/-- A mass resting against the left wall (radius 1 gives a screen radius of
15) with zero snapshot velocity and a small post-step `vx`, for the C4
witness. -/
def mC4 : Mass ℚ :=
  { mkMass (0:ℚ) with
      mass := 1, radius := 1, x := 16, y := 50, vx := 1/100,
      vy := 0, old_x := 15, old_y := 50, old_vx := 0, old_vy := 0 }

/-- Parameters with stickiness 1 for the C4 witness. -/
def stC4 : State := { State.reset with cur_stick := 1 }

/-- Store holding only `mC4`, for the C4 witness. -/
def sysC4 : System ℚ := ⟨[mC4], [], stC4⟩

/-- A unit mass for the stickiness-0 half of the C4 witness. -/
def mC4m : Mass ℚ := { mkMass (0:ℚ) with mass := 1 }

theorem c4_wall_stick_witness :
    ((wallPhase ctx0 stC4 (stickMag stC4) sysC4).masses[0]? =
      some { mC4 with vx := 0, vy := 0, x := mC4.old_x, y := mC4.old_y }) ∧
    wallStickTest ctx0 { stC4 with cur_stick := 0 }
      (stickMag { stC4 with cur_stick := 0 }) mC4m = false :=
  c4_wall_stick ctx0 stC4 sysC4 0 mC4 mC4m rfl rfl
    (by with_unfolding_all decide) (by with_unfolding_all decide)

theorem resolveCenter_of_alive (c : Ctx) (sys : System ℚ) (cid : ℕ)
    (mc : Mass ℚ) (hcid : sys.state.center_id = (cid : ℤ))
    (hmc : sys.masses[cid]? = some mc) (hmca : mc.status.alive = true) :
    resolveCenter c sys = (mc.x, mc.y, sys) := by
  unfold resolveCenter
  rw [hcid]
  rw [if_pos (Int.natCast_nonneg cid)]
  simp [hmc, hmca]

theorem foldl_applySpring_dead (c : Ctx) (sl : List (Spring ℚ))
    (ms : List (Mass ℚ)) (hdead : sl.all (fun s => !s.status.alive) = true) :
    sl.foldl (applySpring c) ms = ms := by
  induction sl generalizing ms with
  | nil => rfl
  | cons s rest ih =>
      rw [List.all_cons, Bool.and_eq_true] at hdead
      have hs : s.status.alive = false := by
        simpa using hdead.1
      rw [List.foldl_cons]
      have : applySpring c ms s = ms := by
        unfold applySpring
        rw [hs]
        rfl
      rw [this]
      exact ih ms hdead.2

/-- C6 (amended): with only the center-of-mass force enabled and no live
springs, each free mass other than the designated (alive) center receives
the acceleration `−(gval·(avg_x − c_x) + gmisc·avg_vx)/msum − visc·vx`
(and the `y` analogue): the mass-weighted position/velocity averages are
taken over the free masses excluding the center, and the whole term is
divided by the *total* free mass `msum`, not by the moving mass's own
mass — the same acceleration is added to every such mass, so the
acceleration (not the force) is independent of the mass's own mass. -/
theorem c6_cmass_accel (c : Ctx) (sys : System ℚ) (i cid : ℕ) (m mc : Mass ℚ)
    (hcid : sys.state.center_id = (cid : ℤ))
    (hmc : sys.masses[cid]? = some mc)
    (hmca : mc.status.alive = true)
    (hcm : sys.state.fe_cmass = true)
    (hgrav : sys.state.fe_grav = false)
    (hpt : sys.state.fe_ptattract = false)
    (hwall : sys.state.fe_wall = false)
    (hsprings : sys.springs.all (fun s => !s.status.alive) = true)
    (hm : sys.masses[i]? = some m)
    (hfree : isFree m = true)
    (hne : (i : ℤ) ≠ sys.state.center_id)
    (hmsum : (cmSums sys).1 ≠ 0) :
    ((accumulateAccel c sys).masses[i]?.map Mass.ax =
      some (-(sys.state.grav_val_cmass * ((cmSums sys).2.1 / (cmSums sys).1 - mc.x)
          + sys.state.misc_val_cmass * ((cmSums sys).2.2.2.1 / (cmSums sys).1))
            / (cmSums sys).1
        - sys.state.cur_visc * m.vx)) ∧
    ((accumulateAccel c sys).masses[i]?.map Mass.ay =
      some (-(sys.state.grav_val_cmass * ((cmSums sys).2.2.1 / (cmSums sys).1 - mc.y)
          + sys.state.misc_val_cmass * ((cmSums sys).2.2.2.2 / (cmSums sys).1))
            / (cmSums sys).1
        - sys.state.cur_visc * m.vy)) := by
  have hrc : resolveCenter c sys = (mc.x, mc.y, sys) :=
    resolveCenter_of_alive c sys cid mc hcid hmc hmca
  unfold accumulateAccel
  rw [hrc]
  simp only [hgrav, hcm, hpt, hwall, Bool.false_eq_true, if_false, if_true]
  rw [foldl_applySpring_dead c sys.springs _ hsprings]
  rw [List.getElem?_map, List.getElem?_enum, hm]
  simp only [Option.map_some']
  unfold gravityApply
  dsimp only
  rw [if_pos hfree, if_pos hne]
  unfold cmOg
  rw [if_pos hmsum]
  constructor
  · simp [setAccel]
  · simp [setAccel]

/-- A claim-modelled definition (the refinement comparison for C6): the
center-of-mass contribution as the claim words it, with the magnitude and
velocity-damping terms divided by the moving mass's *own* mass. -/
def cmAccelClaim (sys : System ℚ) (cx : ℚ) (m : Mass ℚ) : ℚ :=
  -(sys.state.grav_val_cmass * ((cmSums sys).2.1 / (cmSums sys).1 - cx)
      + sys.state.misc_val_cmass * ((cmSums sys).2.2.2.1 / (cmSums sys).1)) / m.mass

/-- The C6 counterexample store: two free masses (masses 1 and 2) at
(60, 50), at rest, no designated center (canvas center (50, 50)), only the
center-of-mass force enabled with magnitude 5. -/
def sysC6 : System ℚ :=
  ⟨[{ mkMass (0:ℚ) with mass := 1, x := 60, y := 50 },
    { mkMass (0:ℚ) with mass := 2, x := 60, y := 50 }],
   [],
   { State.reset with fe_cmass := true }⟩

/-- C6 counterexample: on `sysC6` the force accumulator gives mass 1 (own
mass 2) the x-acceleration `−50/3` — the term divided by the total free
mass `msum = 3` — whereas the claim's own-mass formula yields `−25`.  The
claim's sentence is false on the code; the acceleration, not the force, is
mass-independent. -/
theorem c6_cmass_counterexample :
    ((accumulateAccel ctx0 sysC6).masses[1]?.map Mass.ax = some (-(50:ℚ)/3)) ∧
    cmAccelClaim sysC6 50 ({ mkMass (0:ℚ) with mass := 2, x := 60, y := 50 }) =
      -25 ∧
    (-(50:ℚ)/3) ≠ -25 := by with_unfolding_all decide

/-- The designated center mass of the C6 witness store. -/
def mC6c : Mass ℚ := { mkMass (0:ℚ) with x := 50, y := 50 }

/-- The observed free mass of the C6 witness store. -/
def mC6a : Mass ℚ := { mkMass (0:ℚ) with mass := 1, x := 60, y := 50 }

/-- The C6 witness store: an alive designated center at (50, 50) and two
free masses of different mass at (60, 50), center-of-mass force enabled. -/
def sysC6W : System ℚ :=
  ⟨[mC6c, mC6a, { mkMass (0:ℚ) with mass := 2, x := 60, y := 50 }],
   [],
   { State.reset with fe_cmass := true, center_id := 0 }⟩

theorem c6_cmass_accel_witness :
    ((accumulateAccel ctx0 sysC6W).masses[1]?.map Mass.ax =
      some (-(sysC6W.state.grav_val_cmass *
            ((cmSums sysC6W).2.1 / (cmSums sysC6W).1 - mC6c.x)
          + sysC6W.state.misc_val_cmass *
            ((cmSums sysC6W).2.2.2.1 / (cmSums sysC6W).1))
            / (cmSums sysC6W).1
        - sysC6W.state.cur_visc * mC6a.vx)) ∧
    ((accumulateAccel ctx0 sysC6W).masses[1]?.map Mass.ay =
      some (-(sysC6W.state.grav_val_cmass *
            ((cmSums sysC6W).2.2.1 / (cmSums sysC6W).1 - mC6c.y)
          + sysC6W.state.misc_val_cmass *
            ((cmSums sysC6W).2.2.2.2 / (cmSums sysC6W).1))
            / (cmSums sysC6W).1
        - sysC6W.state.cur_visc * mC6a.vy)) :=
  c6_cmass_accel ctx0 sysC6W 1 0 mC6a mC6c rfl rfl rfl rfl rfl rfl rfl rfl rfl
    rfl (by with_unfolding_all decide) (by with_unfolding_all decide)

/-- `resolveCenter` can change only `center_id` in the parameters (and the
mass list not at all). -/
theorem resolveCenter_state_eta (c : Ctx) (sys : System ℚ) :
    ((resolveCenter c sys).2.2).state =
      { sys.state with center_id := ((resolveCenter c sys).2.2).state.center_id } := by
  unfold resolveCenter
  dsimp only
  split
  · split <;> rfl
  · rfl

theorem resolveCenter_masses (c : Ctx) (sys : System ℚ) :
    ((resolveCenter c sys).2.2).masses = sys.masses := by
  unfold resolveCenter
  dsimp only
  split
  · split <;> rfl
  · rfl

theorem resolveCenter_springs (c : Ctx) (sys : System ℚ) :
    ((resolveCenter c sys).2.2).springs = sys.springs := by
  unfold resolveCenter
  dsimp only
  split
  · split <;> rfl
  · rfl

theorem accumulateAccel_state_eta (c : Ctx) (sys : System ℚ) :
    (accumulateAccel c sys).state =
      { sys.state with center_id := (accumulateAccel c sys).state.center_id } := by
  have h : (accumulateAccel c sys).state = ((resolveCenter c sys).2.2).state := rfl
  rw [h]
  exact resolveCenter_state_eta c sys

theorem accumulateAccel_cur_dt (c : Ctx) (sys : System ℚ) :
    (accumulateAccel c sys).state.cur_dt = sys.state.cur_dt := by
  rw [accumulateAccel_state_eta]

theorem accumulateAccel_cur_prec (c : Ctx) (sys : System ℚ) :
    (accumulateAccel c sys).state.cur_prec = sys.state.cur_prec := by
  rw [accumulateAccel_state_eta]

theorem rkfStages_cur_dt (c : Ctx) (h : ℚ) (sys : System ℚ) :
    (rkfStages c h sys).state.cur_dt = sys.state.cur_dt := by
  unfold rkfStages
  simp only [accumulateAccel_cur_dt]

theorem rkfStages_cur_prec (c : Ctx) (h : ℚ) (sys : System ℚ) :
    (rkfStages c h sys).state.cur_prec = sys.state.cur_prec := by
  unfold rkfStages
  simp only [accumulateAccel_cur_prec]

/-- C1: an adaptive attempt whose scaled error ratio is at least 1, taken
with a (clamped) step still above `DT_MIN`, never commits: the attempt
reports no acceptance, every free mass is rolled back to its pre-step
snapshot (`old_*`), `cur_dt` is multiplied by `0.9·exp(−ln(maxerr)/4)`,
and the integrator retries the whole six-stage sequence on the shrunk
step.  Contrapositively, a committed step has `maxerr < 1` or was taken at
`cur_dt = DT_MIN`. -/
theorem c1_adaptive_reject (c : Ctx) (sys : System ℚ) (fuel : ℕ)
    (hme : 1 ≤ rkfErrRatio c sys)
    (hdt : DT_MIN < rkfDt0 sys) :
    (rkfIter c sys).2 = false ∧
    (rkfIter c sys).1.masses =
      (rkfStages c (rkfDt0 sys) (clampDt sys)).masses.map rkfRollback ∧
    (rkfIter c sys).1.state.cur_dt =
      rkfDt0 sys * (0.9 * c.expQ (-(c.logQ (rkfErrRatio c sys)) / 4)) ∧
    adaptiveRungeKutta c (fuel + 1) sys =
      adaptiveRungeKutta c fuel (rkfIter c sys).1 := by
  have hpos : DT_MIN <
      (rkfStages c ((clampDt sys).state.cur_dt) (clampDt sys)).state.cur_dt := by
    rw [rkfStages_cur_dt]
    exact hdt
  have hiter : rkfIter c sys =
      ({ (rkfStages c (rkfDt0 sys) (clampDt sys)) with
          masses := (rkfStages c (rkfDt0 sys) (clampDt sys)).masses.map rkfRollback,
          state := { (rkfStages c (rkfDt0 sys) (clampDt sys)).state with
            cur_dt := (rkfStages c (rkfDt0 sys) (clampDt sys)).state.cur_dt *
              (0.9 * c.expQ (-(c.logQ (rkfErrRatio c sys)) / 4)) } }, false) := by
    unfold rkfIter
    dsimp only
    unfold rkfErrRatio rkfDt0 at hme
    rw [if_neg (not_lt.mpr hme), if_pos hpos]
    rfl
  refine ⟨by rw [hiter], by rw [hiter], ?_, ?_⟩
  · rw [hiter]
    show (rkfStages c (rkfDt0 sys) (clampDt sys)).state.cur_dt *
        (0.9 * c.expQ (-(c.logQ (rkfErrRatio c sys)) / 4)) = _
    rw [rkfStages_cur_dt]
    rfl
  · show (if (rkfIter c sys).2 = true then (rkfIter c sys).1
      else adaptiveRungeKutta c fuel (rkfIter c sys).1) = _
    rw [hiter]
    rfl

/-- The C1 witness store: one free mass moving at unit velocity with every
force disabled (so all six stage errors vanish and the error floor
`0.00001` survives), and a precision target of `0.000001`, making the
scaled error ratio 10; `cur_dt` starts at `0.025 > DT_MIN`. -/
def sysC1 : System ℚ :=
  ⟨[{ mkMass (0:ℚ) with mass := 1, x := 50, y := 50, vx := 1, old_x := 7,
                        old_y := 8, old_vx := 9, old_vy := 10 }],
   [],
   { State.reset with cur_prec := 0.000001 }⟩

theorem c1_adaptive_reject_witness :
    (1 ≤ rkfErrRatio ctx0 sysC1 ∧ DT_MIN < rkfDt0 sysC1) ∧
    ((rkfIter ctx0 sysC1).2 = false ∧
      (rkfIter ctx0 sysC1).1.state.cur_dt =
        rkfDt0 sysC1 * (0.9 * ctx0.expQ (-(ctx0.logQ (rkfErrRatio ctx0 sysC1)) / 4))) :=
  ⟨⟨by with_unfolding_all decide, by with_unfolding_all decide⟩,
   ⟨(c1_adaptive_reject ctx0 sysC1 0 (by with_unfolding_all decide)
      (by with_unfolding_all decide)).1,
    (c1_adaptive_reject ctx0 sysC1 0 (by with_unfolding_all decide)
      (by with_unfolding_all decide)).2.2.1⟩⟩

/-- A free alive mass whose velocity alone is NaN. -/
def mNaNvel : Mass Dbl := { mkMass (Dbl.val 0) with vy := Dbl.nan }

/-- Store holding only `mNaNvel`. -/
def sysC2X : System Dbl := ⟨[mNaNvel], [], State.reset⟩

/-- C2 counterexample: the exploded-object guard tests only `x`, `y`, `ax`
and `ay`; a free alive mass whose velocity is NaN but whose position and
acceleration are finite survives the guard alive, contradicting the claim
that a NaN velocity triggers deletion.  (In IEEE arithmetic a NaN velocity
with finite position/acceleration is producible, e.g. through an
`∞ − ∞` in the velocity combination alone.) -/
theorem c2_velocity_nan_not_deleted :
    mNaNvel.vy = Dbl.nan ∧ mNaNvel.status.alive = true ∧
    mNaNvel.status.fixed = false ∧
    (explodeGuard sysC2X).masses[0]?.map (fun q => q.status.alive) = some true := by
  with_unfolding_all decide

/-- A free alive mass whose position `x` is NaN. -/
def mNaNx : Mass Dbl := { mkMass (Dbl.val 0) with x := Dbl.nan }

/-- Store holding `mNaNx` and a finite mass. -/
def sysC2W : System Dbl := ⟨[mNaNx, mkMass (Dbl.val 0)], [], State.reset⟩

theorem c2_explodeGuard_amended_witness :
    ((explodeGuard sysC2W).masses[0]?.map (fun q => q.status.alive) = some false) ∧
    ((explodeGuard sysC2W).masses[1]?.map Mass.status =
      some (mkMass (Dbl.val 0)).status) ∧
    (explodeGuard sysC2W).masses.length = sysC2W.masses.length :=
  c2_explodeGuard_amended sysC2W 0 1 mNaNx (mkMass (Dbl.val 0)) rfl rfl rfl
    (by with_unfolding_all decide) rfl (by with_unfolding_all decide)

/-- The per-mass data C10 is about: position, velocity and status. -/
def coreOf (m : Mass ℚ) : ℚ × ℚ × ℚ × ℚ × Status := (m.x, m.y, m.vx, m.vy, m.status)

theorem status_of_coreOf {m m' : Mass ℚ} (h : coreOf m = coreOf m') :
    m.status = m'.status :=
  congrArg (fun t => t.2.2.2.2) h

theorem set_core_getElem? (l : List (Mass ℚ)) (i k : ℕ) (m' : Mass ℚ)
    (h : coreOf m' = coreOf (l[i]?.getD (mkMass 0))) :
    (l.set i m')[k]?.map coreOf = l[k]?.map coreOf := by
  rcases eq_or_ne k i with rfl | hk
  · cases hv : l[k]? with
    | none =>
        have hlen : l.length ≤ k := by rwa [List.getElem?_eq_none_iff] at hv
        rw [List.set_eq_of_length_le hlen, hv]
    | some v =>
        have hlen : k < l.length := by
          by_contra hc
          simp [List.getElem?_eq_none (Nat.le_of_not_lt hc)] at hv
        have h2 : coreOf m' = coreOf v := by
          simp only [hv, Option.getD_some] at h
          exact h
        rw [List.getElem?_set_eq hlen]
        simp [h2]
  · rw [List.getElem?_set_ne (Ne.symm hk)]

theorem set_setAccel_core (l : List (Mass ℚ)) (i k : ℕ) (a b : ℚ) :
    (l.set i (setAccel (l[i]?.getD (mkMass 0)) a b))[k]?.map coreOf =
      l[k]?.map coreOf :=
  set_core_getElem? l i k _ rfl

theorem applySpring_core (c : Ctx) (ms : List (Mass ℚ)) (s : Spring ℚ) (k : ℕ) :
    (applySpring c ms s)[k]?.map coreOf = ms[k]?.map coreOf := by
  unfold applySpring
  split
  · dsimp only
    by_cases hcond : ((ms[s.m1]?.getD (mkMass 0)).x - (ms[s.m2]?.getD (mkMass 0)).x ≠ 0 ∨
        (ms[s.m1]?.getD (mkMass 0)).y - (ms[s.m2]?.getD (mkMass 0)).y ≠ 0)
    · rw [if_pos hcond]
      rw [set_setAccel_core, set_setAccel_core]
    · rw [if_neg hcond]
  · rfl

theorem foldl_applySpring_core (c : Ctx) (sl : List (Spring ℚ))
    (ms : List (Mass ℚ)) (k : ℕ) :
    (sl.foldl (applySpring c) ms)[k]?.map coreOf = ms[k]?.map coreOf := by
  induction sl generalizing ms with
  | nil => rfl
  | cons s rest ih => rw [List.foldl_cons, ih, applySpring_core]

theorem map_core_of_accel_fn (f : Mass ℚ → Mass ℚ)
    (hf : ∀ m, coreOf (f m) = coreOf m) (l : List (Mass ℚ)) (k : ℕ) :
    (l.map f)[k]?.map coreOf = l[k]?.map coreOf := by
  rw [List.getElem?_map]
  cases l[k]? with
  | none => rfl
  | some m => simp [hf m]

theorem enum_map_core (f : ℕ × Mass ℚ → Mass ℚ)
    (hf : ∀ p, coreOf (f p) = coreOf p.2) (l : List (Mass ℚ)) (k : ℕ) :
    (l.enum.map f)[k]?.map coreOf = l[k]?.map coreOf := by
  rw [List.getElem?_map, List.getElem?_enum]
  cases l[k]? with
  | none => rfl
  | some m => simp [hf (k, m)]

theorem gravityApply_core (st : State) (gx gy ogx ogy : ℚ) (p : ℕ × Mass ℚ) :
    coreOf (gravityApply st gx gy ogx ogy p) = coreOf p.2 := by
  unfold gravityApply
  dsimp only
  split
  · split <;> rfl
  · rfl

theorem ptAttractApply_core (c : Ctx) (st : State) (cx cy : ℚ) (m : Mass ℚ) :
    coreOf (ptAttractApply c st cx cy m) = coreOf m := by
  unfold ptAttractApply
  dsimp only
  split <;> rfl

theorem wallForceApply_core (c : Ctx) (st : State) (m : Mass ℚ) :
    coreOf (wallForceApply c st m) = coreOf m := by
  unfold wallForceApply
  dsimp only
  split <;> rfl

/-- The force accumulator writes only accelerations: position, velocity and
status of every mass are untouched. -/
theorem accumulateAccel_core (c : Ctx) (sys : System ℚ) (k : ℕ) :
    (accumulateAccel c sys).masses[k]?.map coreOf = sys.masses[k]?.map coreOf := by
  unfold accumulateAccel
  dsimp only
  rw [foldl_applySpring_core]
  split
  · rw [map_core_of_accel_fn _ (wallForceApply_core c _)]
    split
    · rw [map_core_of_accel_fn _ (ptAttractApply_core c _ _ _),
        enum_map_core _ (gravityApply_core _ _ _ _ _), resolveCenter_masses]
    · rw [enum_map_core _ (gravityApply_core _ _ _ _ _), resolveCenter_masses]
  · split
    · rw [map_core_of_accel_fn _ (ptAttractApply_core c _ _ _),
        enum_map_core _ (gravityApply_core _ _ _ _ _), resolveCenter_masses]
    · rw [enum_map_core _ (gravityApply_core _ _ _ _ _), resolveCenter_masses]

/-- Mapping a per-mass function that is the identity on non-free masses
preserves the core of an entry holding a `S_FIXED` value. -/
theorem map_nonfree_core (f : Mass ℚ → Mass ℚ)
    (hf : ∀ m, isFree m = false → f m = m) (l : List (Mass ℚ)) (k : ℕ)
    (mk : Mass ℚ) (hfx : mk.status.fixed = true)
    (h : l[k]?.map coreOf = some (coreOf mk)) :
    (l.map f)[k]?.map coreOf = some (coreOf mk) := by
  rw [List.getElem?_map]
  cases hv : l[k]? with
  | none => rw [hv] at h; simp at h
  | some m =>
      rw [hv] at h
      simp only [Option.map_some'] at h ⊢
      have hc : coreOf m = coreOf mk := Option.some.inj h
      have hst : m.status.fixed = true := by
        rw [status_of_coreOf hc]; exact hfx
      rw [hf m (by simp [isFree, hst])]
      exact h

theorem clampDt_masses (sys : System ℚ) : (clampDt sys).masses = sys.masses := rfl

/-- The fixed-step integrator preserves the core of a `S_FIXED` entry:
every stage skips non-free masses and the force passes only write
accelerations. -/
theorem rungeKutta_fixed_core (c : Ctx) (h : ℚ) (testloc : Bool)
    (sys : System ℚ) (k : ℕ) (mk : Mass ℚ) (hfx : mk.status.fixed = true)
    (hP : sys.masses[k]?.map coreOf = some (coreOf mk)) :
    (rungeKutta c h testloc sys).masses[k]?.map coreOf = some (coreOf mk) := by
  unfold rungeKutta
  dsimp only
  refine map_nonfree_core _ (fun m hm => by simp [rk4Combine, hm]) _ _ _ hfx ?_
  refine map_nonfree_core _ (fun m hm => by simp [rk4Stage4, hm]) _ _ _ hfx ?_
  rw [accumulateAccel_core]
  dsimp only
  refine map_nonfree_core _ (fun m hm => by simp [rk4Stage3, hm]) _ _ _ hfx ?_
  rw [accumulateAccel_core]
  dsimp only
  refine map_nonfree_core _ (fun m hm => by simp [rk4Stage2, hm]) _ _ _ hfx ?_
  rw [accumulateAccel_core]
  dsimp only
  refine map_nonfree_core _ (fun m hm => by simp [rk4Stage1, hm]) _ _ _ hfx ?_
  rw [accumulateAccel_core]
  exact hP

/-- The six Cash-Karp stages preserve the core of a `S_FIXED` entry. -/
theorem rkfStages_fixed_core (c : Ctx) (h : ℚ) (sys : System ℚ) (k : ℕ)
    (mk : Mass ℚ) (hfx : mk.status.fixed = true)
    (hP : sys.masses[k]?.map coreOf = some (coreOf mk)) :
    (rkfStages c h sys).masses[k]?.map coreOf = some (coreOf mk) := by
  unfold rkfStages
  dsimp only
  refine map_nonfree_core _ (fun m hm => by simp [rkfStage6, hm]) _ _ _ hfx ?_
  rw [accumulateAccel_core]
  dsimp only
  refine map_nonfree_core _ (fun m hm => by simp [rkfStage5, hm]) _ _ _ hfx ?_
  rw [accumulateAccel_core]
  dsimp only
  refine map_nonfree_core _ (fun m hm => by simp [rkfStage4, hm]) _ _ _ hfx ?_
  rw [accumulateAccel_core]
  dsimp only
  refine map_nonfree_core _ (fun m hm => by simp [rkfStage3, hm]) _ _ _ hfx ?_
  rw [accumulateAccel_core]
  dsimp only
  refine map_nonfree_core _ (fun m hm => by simp [rkfStage2, hm]) _ _ _ hfx ?_
  rw [accumulateAccel_core]
  dsimp only
  refine map_nonfree_core _ (fun m hm => by simp [rkfStage1, hm]) _ _ _ hfx ?_
  rw [accumulateAccel_core]
  exact hP

/-- One adaptive attempt preserves the core of a `S_FIXED` entry: both the
commit and the rollback maps skip non-free masses. -/
theorem rkfIter_fixed_core (c : Ctx) (sys : System ℚ) (k : ℕ) (mk : Mass ℚ)
    (hfx : mk.status.fixed = true)
    (h : sys.masses[k]?.map coreOf = some (coreOf mk)) :
    ((rkfIter c sys).1).masses[k]?.map coreOf = some (coreOf mk) := by
  have hS : (rkfStages c (clampDt sys).state.cur_dt (clampDt sys)).masses[k]?.map
      coreOf = some (coreOf mk) :=
    rkfStages_fixed_core c _ (clampDt sys) k mk hfx (by rw [clampDt_masses]; exact h)
  unfold rkfIter
  dsimp only
  split
  · exact map_nonfree_core _ (fun m hm => by simp [rkfCommit, hm]) _ _ _ hfx hS
  · split
    · exact map_nonfree_core _ (fun m hm => by simp [rkfRollback, hm]) _ _ _ hfx hS
    · exact map_nonfree_core _ (fun m hm => by simp [rkfCommit, hm]) _ _ _ hfx hS

/-- The adaptive retry loop preserves the core of a `S_FIXED` entry, for
any fuel. -/
theorem adaptiveRungeKutta_fixed_core (c : Ctx) (k : ℕ) (mk : Mass ℚ)
    (hfx : mk.status.fixed = true) (fuel : ℕ) :
    ∀ (sys : System ℚ), sys.masses[k]?.map coreOf = some (coreOf mk) →
      (adaptiveRungeKutta c fuel sys).masses[k]?.map coreOf = some (coreOf mk) := by
  induction fuel with
  | zero => intro sys h; exact h
  | succ n ih =>
      intro sys h
      unfold adaptiveRungeKutta
      dsimp only
      split
      · exact rkfIter_fixed_core c sys k mk hfx h
      · exact ih _ (rkfIter_fixed_core c sys k mk hfx h)

/-- The step-selection block preserves the core of a `S_FIXED` entry. -/
theorem integratorPhase_fixed_core (c : Ctx) (fuel : ℕ) (sys : System ℚ)
    (k : ℕ) (mk : Mass ℚ) (hfx : mk.status.fixed = true)
    (h : sys.masses[k]?.map coreOf = some (coreOf mk)) :
    (integratorPhase c fuel sys).masses[k]?.map coreOf = some (coreOf mk) := by
  unfold integratorPhase
  split
  · split
    · exact adaptiveRungeKutta_fixed_core c k mk hfx fuel sys h
    · exact rungeKutta_fixed_core c _ _ _ k mk hfx h
  · exact rungeKutta_fixed_core c _ _ _ k mk hfx h

/-- A fold whose body preserves the fixed-entry core invariant preserves it. -/
theorem foldl_fixed_core (f : System ℚ → ℕ → System ℚ) (k : ℕ) (mk : Mass ℚ)
    (hf : ∀ (s : System ℚ) (p : ℕ), s.masses[k]?.map coreOf = some (coreOf mk) →
      (f s p).masses[k]?.map coreOf = some (coreOf mk))
    (l : List ℕ) (s : System ℚ)
    (h : s.masses[k]?.map coreOf = some (coreOf mk)) :
    (l.foldl f s).masses[k]?.map coreOf = some (coreOf mk) := by
  induction l generalizing s with
  | nil => exact h
  | cons a t ih => exact ih (f s a) (hf s a h)

/-- One wall-loop iteration preserves the core of a `S_FIXED` entry: at the
entry itself the mass is not free so nothing happens; at other indices the
exploded-object delete cannot fire over exact rationals and the stick/bounce
write stays at its own index. -/
theorem wallBody_fixed_core (c : Ctx) (st : State) (sm : ℚ) (acc : System ℚ)
    (p k : ℕ) (mk : Mass ℚ) (hfx : mk.status.fixed = true)
    (h : acc.masses[k]?.map coreOf = some (coreOf mk)) :
    (wallBody c st sm acc p).masses[k]?.map coreOf = some (coreOf mk) := by
  unfold wallBody
  dsimp only
  rcases eq_or_ne p k with rfl | hpk
  · cases hv : acc.masses[p]? with
    | none => rw [hv] at h; simp at h
    | some m =>
        have hc : coreOf m = coreOf mk := by rw [hv] at h; simpa using h
        have hst : m.status.fixed = true := by
          rw [status_of_coreOf hc]; exact hfx
        simp only [Option.getD_some]
        rw [if_neg (by simp [isFree, hst])]
        exact h
  · split
    · simp only [selfNeqQ_eq_false, Bool.false_or]
      rw [if_neg (by simp)]
      dsimp only
      rw [List.getElem?_set_ne hpk]
      exact h
    · exact h

/-- A velocity write at index `p` guarded by `!fixed` of the mass at `p`
preserves the core of a `S_FIXED` entry at any index. -/
theorem setGuard_core (s : System ℚ) (p k : ℕ) (v : Mass ℚ) (mk : Mass ℚ)
    (hfx : mk.status.fixed = true)
    (h : s.masses[k]?.map coreOf = some (coreOf mk)) :
    (if (!(s.masses[p]?.getD (mkMass 0)).status.fixed) = true
       then { s with masses := s.masses.set p v } else s).masses[k]?.map coreOf
      = some (coreOf mk) := by
  rcases eq_or_ne p k with rfl | hpk
  · cases hv : s.masses[p]? with
    | none => rw [hv] at h; simp at h
    | some m =>
        have hc : coreOf m = coreOf mk := by rw [hv] at h; simpa using h
        have hst : m.status.fixed = true := by
          rw [status_of_coreOf hc]; exact hfx
        simp only [Option.getD_some, hst, Bool.not_true]
        rw [if_neg (by simp)]
        exact h
  · split
    · dsimp only
      rw [List.getElem?_set_ne hpk]
      exact h
    · exact h

/-- Both branches of a conditional satisfying the fixed-entry core
invariant satisfy it. -/
theorem ite_core (P : Prop) [Decidable P] (s1 s2 : System ℚ) (k : ℕ)
    (mk : Mass ℚ)
    (h1 : s1.masses[k]?.map coreOf = some (coreOf mk))
    (h2 : s2.masses[k]?.map coreOf = some (coreOf mk)) :
    (if P then s1 else s2).masses[k]?.map coreOf = some (coreOf mk) := by
  split
  · exact h1
  · exact h2

/-- One inner collision iteration preserves the core of a `S_FIXED` entry:
both velocity writes are guarded by the non-fixedness of the written mass. -/
theorem collideBody_fixed_core (c : Ctx) (i : ℕ) (m1x m1y m1r : ℚ)
    (acc2 : System ℚ) (j k : ℕ) (mk : Mass ℚ) (hfx : mk.status.fixed = true)
    (h : acc2.masses[k]?.map coreOf = some (coreOf mk)) :
    (collideBody c i m1x m1y m1r acc2 j).masses[k]?.map coreOf
      = some (coreOf mk) := by
  unfold collideBody
  dsimp only
  refine ite_core _ _ _ k mk ?_ h
  refine ite_core _ _ _ k mk ?_ h
  refine ite_core _ _ _ k mk ?_ h
  exact setGuard_core _ j k _ mk hfx (setGuard_core acc2 i k _ mk hfx h)

/-- One outer collision iteration preserves the core of a `S_FIXED` entry. -/
theorem collideOuter_fixed_core (c : Ctx) (acc : System ℚ) (i k : ℕ)
    (mk : Mass ℚ) (hfx : mk.status.fixed = true)
    (h : acc.masses[k]?.map coreOf = some (coreOf mk)) :
    (collideOuter c acc i).masses[k]?.map coreOf = some (coreOf mk) := by
  unfold collideOuter
  dsimp only
  split
  · exact foldl_fixed_core _ k mk
      (fun s p hs => collideBody_fixed_core c i _ _ _ s p k mk hfx hs) _ _ h
  · exact h

/-- The wall loop preserves the core of a `S_FIXED` entry. -/
theorem wallPhase_fixed_core (c : Ctx) (st : State) (sm : ℚ) (sys : System ℚ)
    (k : ℕ) (mk : Mass ℚ) (hfx : mk.status.fixed = true)
    (h : sys.masses[k]?.map coreOf = some (coreOf mk)) :
    (wallPhase c st sm sys).masses[k]?.map coreOf = some (coreOf mk) :=
  foldl_fixed_core _ k mk
    (fun s p hs => wallBody_fixed_core c st sm s p k mk hfx hs) _ sys h

/-- The collision pass preserves the core of a `S_FIXED` entry. -/
theorem collisionPhase_fixed_core (c : Ctx) (sys : System ℚ) (k : ℕ)
    (mk : Mass ℚ) (hfx : mk.status.fixed = true)
    (h : sys.masses[k]?.map coreOf = some (coreOf mk)) :
    (collisionPhase c sys).masses[k]?.map coreOf = some (coreOf mk) := by
  unfold collisionPhase
  split
  · exact foldl_fixed_core _ k mk
      (fun s p hs => collideOuter_fixed_core c s p k mk hfx hs) _ sys h
  · exact h

/-- C10: a mass whose status includes `S_FIXED` comes out of one
`Physics::advance` call with its position and velocity (and status)
unchanged, for every interpretation of the library functions, every force
configuration, wall contact and the collision flag: the snapshot, all
integrator stages, the stick/bounce wall code and both halves of the
pairwise collision response skip such a mass, and the force passes write
only its accelerations. -/
theorem c10_fixed_mass_immobile (c : Ctx) (fuel : ℕ) (sys : System ℚ)
    (ps : PaceState) (i : ℕ) (m : Mass ℚ)
    (hm : sys.masses[i]? = some m)
    (hfx : m.status.fixed = true) :
    (advance c fuel sys ps).1.masses[i]?.map Mass.x = some m.x ∧
    (advance c fuel sys ps).1.masses[i]?.map Mass.y = some m.y ∧
    (advance c fuel sys ps).1.masses[i]?.map Mass.vx = some m.vx ∧
    (advance c fuel sys ps).1.masses[i]?.map Mass.vy = some m.vy := by
  have hcore : (advance c fuel sys ps).1.masses[i]?.map coreOf
      = some (coreOf m) := by
    unfold advance
    dsimp only
    apply collisionPhase_fixed_core c _ i m hfx
    apply wallPhase_fixed_core c _ _ _ i m hfx
    apply integratorPhase_fixed_core c fuel _ i m hfx
    dsimp only
    exact map_nonfree_core _ (fun x hx => by simp [snapshotMass, hx]) _ _ _ hfx
      (by rw [hm]; rfl)
  cases hv : (advance c fuel sys ps).1.masses[i]? with
  | none => rw [hv] at hcore; simp at hcore
  | some m' =>
      rw [hv] at hcore
      have hc : coreOf m' = coreOf m := by simpa using hcore
      refine ⟨?_, ?_, ?_, ?_⟩
      · simp only [Option.map_some']
        exact congrArg (fun t => some t.1) hc
      · simp only [Option.map_some']
        exact congrArg (fun t => some t.2.1) hc
      · simp only [Option.map_some']
        exact congrArg (fun t => some t.2.2.1) hc
      · simp only [Option.map_some']
        exact congrArg (fun t => some t.2.2.2.1) hc

/-- A nailed-down mass for the C10 witness store. -/
def mC10 : Mass ℚ :=
  { mkMass (0:ℚ) with x := 30, y := 40, vx := 1, vy := 2, mass := 1,
                      status := ⟨true, false, true, false⟩ }

/-- The C10 witness store: one fixed mass under default parameters with
gravity and collisions switched on. -/
def sysC10 : System ℚ :=
  ⟨[mC10], [], { State.reset with fe_grav := true, collide := true }⟩

theorem c10_fixed_mass_immobile_witness :
    sysC10.masses[0]? = some mC10 ∧ mC10.status.fixed = true ∧
    ((advance ctx0 1 sysC10 ⟨0, 0⟩).1.masses[0]?.map Mass.x = some mC10.x ∧
     (advance ctx0 1 sysC10 ⟨0, 0⟩).1.masses[0]?.map Mass.y = some mC10.y ∧
     (advance ctx0 1 sysC10 ⟨0, 0⟩).1.masses[0]?.map Mass.vx = some mC10.vx ∧
     (advance ctx0 1 sysC10 ⟨0, 0⟩).1.masses[0]?.map Mass.vy = some mC10.vy) :=
  ⟨rfl, rfl, c10_fixed_mass_immobile ctx0 1 sysC10 ⟨0, 0⟩ 0 mC10 rfl rfl⟩

end QSpringies
